import Mathlib

/-!
Verification of the Cloud-Analytics ETL transformation engine.

The repository's tables are pandas DataFrames; we embed them as a header of
column names together with row-major lists of cells.  A cell is a number
(pandas numeric values, embedded as rationals), a text value (object dtype),
a calendar date (datetime64 values), one of the two IEEE infinities (which
pandas produces on division by zero and does NOT treat as missing), or null
(covering NaN / None / NaT, which pandas treats interchangeably as missing).

Python exceptions are embedded as `Except Err`; a transformation either
returns a value or an error, and the transformation log is threaded
explicitly (the source keeps it in `self.transformation_log`).
-/

/-- A calendar date (proleptic Gregorian), the payload of datetime cells. -/
structure DateVal where
  year : Nat
  month : Nat
  day : Nat
deriving DecidableEq

/-- One cell of a table: pandas scalar values as seen by the transforms. -/
inductive Cell where
  | num (q : ℚ)
  | text (s : String)
  | date (d : DateVal)
  | posInf
  | negInf
  | null
deriving DecidableEq

/-- Errors raised by the embedded code (Python exception taxonomy). -/
inductive Err where
  | notFound (name : String)
  | columnNotFound (name : String)
  | keyError
  | typeError
  | invalidCondition
  | emptyGroupBy
  | divisionByZero
deriving DecidableEq

deriving instance DecidableEq for Except

/-- An in-memory table: ordered column names and row-major cells.
A well-formed table has every row of the same length as the header. -/
structure Table where
  columns : List String
  rows : List (List Cell)
deriving DecidableEq

/-- Well-formedness: each row has exactly one cell per declared column. -/
def Table.WF (t : Table) : Prop :=
  ∀ r ∈ t.rows, r.length = t.columns.length

instance (t : Table) : Decidable t.WF := by
  unfold Table.WF; infer_instance

/-- Index of a named column, as pandas column lookup. -/
def Table.colIdx? (t : Table) (c : String) : Option Nat :=
  t.columns.findIdx? (· = c)

/-- Cell of a row at a column index (out-of-range reads as null; rows of a
well-formed table are never read out of range). -/
def cellAt (r : List Cell) (i : Nat) : Cell :=
  r.getD i Cell.null

/-- The cells of a named column, top to bottom (empty if the column is absent). -/
def Table.col (t : Table) (c : String) : List Cell :=
  match t.colIdx? c with
  | some i => t.rows.map (fun r => cellAt r i)
  | none => []

/-- Column assignment `df[c] = cells`: replaces the column in place if it
exists, otherwise appends it on the right (pandas semantics). -/
def Table.setCol (t : Table) (c : String) (cells : List Cell) : Table :=
  match t.colIdx? c with
  | some i => ⟨t.columns, List.zipWith (fun r cl => r.set i cl) t.rows cells⟩
  | none => ⟨t.columns ++ [c], List.zipWith (fun r cl => r ++ [cl]) t.rows cells⟩

/-- Duplicate removal keeping the first occurrence, with an accumulator of
rows already kept. -/
def dedupGo {α : Type} [DecidableEq α] (seen : List α) : List α → List α
  | [] => []
  | a :: l => if a ∈ seen then dedupGo seen l else a :: dedupGo (a :: seen) l

/-- Duplicate removal keeping the first occurrence
(`DataFrame.drop_duplicates`, which also treats NaN cells as equal). -/
def dedupKeepFirst {α : Type} [DecidableEq α] (l : List α) : List α :=
  dedupGo [] l









/-- Error-propagating map over a list (vectorized pandas operation each of
whose element computations may raise). -/
def mapE {α β : Type} (f : α → Except Err β) : List α → Except Err (List β)
  | [] => Except.ok []
  | a :: l =>
    match f a with
    | Except.error e => Except.error e
    | Except.ok b =>
      match mapE f l with
      | Except.error e => Except.error e
      | Except.ok bs => Except.ok (b :: bs)



/-- Error-propagating binary zip (vectorized binary pandas operation). -/
def zipWithE {α β γ : Type} (f : α → β → Except Err γ) :
    List α → List β → Except Err (List γ)
  | [], _ => Except.ok []
  | _, [] => Except.ok []
  | a :: as, b :: bs =>
    match f a b with
    | Except.error e => Except.error e
    | Except.ok c =>
      match zipWithE f as bs with
      | Except.error e => Except.error e
      | Except.ok cs => Except.ok (c :: cs)


/-- Round to the nearest integer, ties to even (Python `round`, modelled
ideally over the rationals). -/
def roundHalfEven (x : ℚ) : ℤ :=
  let f := ⌊x⌋
  let r := x - f
  if r < 1/2 then f
  else if 1/2 < r then f + 1
  else if f % 2 = 0 then f else f + 1

/-- `round(x, 2)`: round to two decimal places, ties to even. -/
def round2 (q : ℚ) : ℚ := (roundHalfEven (q * 100) : ℚ) / 100

/-- Elementwise subtraction, as `df[a] - df[b]`: NaN propagates, infinities
follow IEEE, and non-numeric operands raise `TypeError`. -/
def cellSub : Cell → Cell → Except Err Cell
  | Cell.num a, Cell.num b => Except.ok (Cell.num (a - b))
  | Cell.null, Cell.num _ => Except.ok Cell.null
  | Cell.num _, Cell.null => Except.ok Cell.null
  | Cell.null, Cell.null => Except.ok Cell.null
  | Cell.posInf, Cell.num _ => Except.ok Cell.posInf
  | Cell.negInf, Cell.num _ => Except.ok Cell.negInf
  | Cell.num _, Cell.posInf => Except.ok Cell.negInf
  | Cell.num _, Cell.negInf => Except.ok Cell.posInf
  | Cell.posInf, Cell.negInf => Except.ok Cell.posInf
  | Cell.negInf, Cell.posInf => Except.ok Cell.negInf
  | Cell.posInf, Cell.posInf => Except.ok Cell.null
  | Cell.negInf, Cell.negInf => Except.ok Cell.null
  | Cell.posInf, Cell.null => Except.ok Cell.null
  | Cell.negInf, Cell.null => Except.ok Cell.null
  | Cell.null, Cell.posInf => Except.ok Cell.null
  | Cell.null, Cell.negInf => Except.ok Cell.null
  | _, _ => Except.error Err.typeError

/-- Elementwise division, as `df[a] / df[b]`: pandas follows numpy, so a
zero divisor yields ±infinity (or NaN for 0/0) instead of raising; NaN
propagates; non-numeric operands raise `TypeError`. -/
def cellDiv : Cell → Cell → Except Err Cell
  | Cell.num a, Cell.num b =>
    if b = 0 then
      if a = 0 then Except.ok Cell.null
      else if 0 < a then Except.ok Cell.posInf
      else Except.ok Cell.negInf
    else Except.ok (Cell.num (a / b))
  | Cell.null, Cell.num _ => Except.ok Cell.null
  | Cell.num _, Cell.null => Except.ok Cell.null
  | Cell.null, Cell.null => Except.ok Cell.null
  | Cell.posInf, Cell.num b =>
    if b < 0 then Except.ok Cell.negInf else Except.ok Cell.posInf
  | Cell.negInf, Cell.num b =>
    if b < 0 then Except.ok Cell.posInf else Except.ok Cell.negInf
  | Cell.num _, Cell.posInf => Except.ok (Cell.num 0)
  | Cell.num _, Cell.negInf => Except.ok (Cell.num 0)
  | Cell.posInf, Cell.posInf => Except.ok Cell.null
  | Cell.posInf, Cell.negInf => Except.ok Cell.null
  | Cell.negInf, Cell.posInf => Except.ok Cell.null
  | Cell.negInf, Cell.negInf => Except.ok Cell.null
  | Cell.posInf, Cell.null => Except.ok Cell.null
  | Cell.negInf, Cell.null => Except.ok Cell.null
  | Cell.null, Cell.posInf => Except.ok Cell.null
  | Cell.null, Cell.negInf => Except.ok Cell.null
  | _, _ => Except.error Err.typeError

/-- Elementwise multiplication by a numeric scalar (`df[c] * k`). -/
def cellMulScalar (c : Cell) (k : ℚ) : Except Err Cell :=
  match c with
  | Cell.num a => Except.ok (Cell.num (a * k))
  | Cell.null => Except.ok Cell.null
  | Cell.posInf =>
    if k = 0 then Except.ok Cell.null
    else if 0 < k then Except.ok Cell.posInf else Except.ok Cell.negInf
  | Cell.negInf =>
    if k = 0 then Except.ok Cell.null
    else if 0 < k then Except.ok Cell.negInf else Except.ok Cell.posInf
  | _ => Except.error Err.typeError

/-- Elementwise `.round(2)`: NaN and infinities pass through unchanged. -/
def cellRound2 : Cell → Except Err Cell
  | Cell.num a => Except.ok (Cell.num (round2 a))
  | Cell.null => Except.ok Cell.null
  | Cell.posInf => Except.ok Cell.posInf
  | Cell.negInf => Except.ok Cell.negInf
  | _ => Except.error Err.typeError

/-- `((profit / revenue) * 100).round(2)` for one row. -/
def profitMarginCell (p r : Cell) : Except Err Cell :=
  match cellDiv p r with
  | Except.error e => Except.error e
  | Except.ok d =>
    match cellMulScalar d 100 with
    | Except.error e => Except.error e
    | Except.ok m => cellRound2 m

/-- Gregorian leap year. -/
def isLeap (y : Nat) : Bool :=
  (y % 4 = 0 && y % 100 ≠ 0) || y % 400 = 0

/-- Days in a month of the Gregorian calendar. -/
def daysInMonth (y m : Nat) : Nat :=
  if m = 2 then (if isLeap y then 29 else 28)
  else if m = 4 ∨ m = 6 ∨ m = 9 ∨ m = 11 then 30
  else 31

/-- Ordinal day within the year (Jan 1 = 1). -/
def dayOfYear (y m d : Nat) : Nat :=
  (List.range (m - 1)).foldl (fun acc i => acc + daysInMonth y (i + 1)) 0 + d

/-- Leap years in `[1, y]`. -/
def leapsUpTo (y : Nat) : Nat := y / 4 - y / 100 + y / 400

/-- Day number in the proleptic Gregorian calendar (0001-01-01 = 1). -/
def dayNumber (dt : DateVal) : Nat :=
  365 * (dt.year - 1) + leapsUpTo (dt.year - 1) + dayOfYear dt.year dt.month dt.day

/-- Day of week, Monday = 0 .. Sunday = 6 (pandas `dt.dayofweek`);
0001-01-01 of the proleptic Gregorian calendar is a Monday. -/
def weekdayMon0 (dt : DateVal) : Nat := (dayNumber dt + 6) % 7

/-- ISO weekday, Monday = 1 .. Sunday = 7. -/
def isoWeekday (dt : DateVal) : Nat := weekdayMon0 dt + 1

/-- Number of ISO weeks in a year (53 when Jan 1 is a Thursday, or a
Wednesday of a leap year; else 52). -/
def isoWeeksInYear (y : Nat) : Nat :=
  if isoWeekday ⟨y, 1, 1⟩ = 4 ∨ (isLeap y ∧ isoWeekday ⟨y, 1, 1⟩ = 3) then 53
  else 52

/-- ISO week number (pandas `dt.isocalendar().week`). -/
def isoWeek (dt : DateVal) : Nat :=
  let w := (dayOfYear dt.year dt.month dt.day + 10 - isoWeekday dt) / 7
  if w < 1 then isoWeeksInYear (dt.year - 1)
  else if isoWeeksInYear dt.year < w then 1
  else w

/-- Predicates on cells used for column-dtype inference. -/
def Cell.isNum : Cell → Bool
  | Cell.num _ => true
  | _ => false

def Cell.isNumOrNull : Cell → Bool
  | Cell.num _ => true
  | Cell.null => true
  | _ => false

def Cell.isDate : Cell → Bool
  | Cell.date _ => true
  | _ => false

def Cell.isDateOrNull : Cell → Bool
  | Cell.date _ => true
  | Cell.null => true
  | _ => false

/-- Column dtype classes relevant to the transforms. -/
inductive ColKind where
  | numeric
  | datetime
  | object
deriving DecidableEq

/-- Value-level reading of a pandas column dtype: a column holding only
numbers (and missing values) is numeric, one holding only dates (and
missing values) is datetime64, anything else — including all-missing
columns — is object dtype. -/
def colKind (cells : List Cell) : ColKind :=
  if cells.all Cell.isNumOrNull && cells.any Cell.isNum then ColKind.numeric
  else if cells.all Cell.isDateOrNull && cells.any Cell.isDate then ColKind.datetime
  else ColKind.object

/-- One entry of `self.transformation_log`, holding the step-specific
metrics the source records. -/
inductive LogEntry where
  | clean (initial_rows final_rows duplicates_removed missing_values_handled : Nat)
  | normalizeDates (columns_processed : List String)
  | calculated (fields_added : List String)
  | filterStep (original_rows final_rows rows_filtered : Nat)
  | aggregate (group_by : List String) (original_rows aggregated_rows : Nat)
      (reduction_percent : ℚ)
deriving DecidableEq

namespace TransformData

/-- `fillna` semantics of `clean_data`: numeric columns fill missing values
with 0, object columns with the string Unknown; datetime columns are
touched by neither `select_dtypes` call, so their missing values remain. -/
def fillCell (k : ColKind) (c : Cell) : Cell :=
  match c with
  | Cell.null =>
    match k with
    | ColKind.numeric => Cell.num 0
    | ColKind.object => Cell.text "Unknown"
    | ColKind.datetime => Cell.null
  | c => c

/-- `DataTransformer.clean_data` of `src/etl/transform_data.py`: counts all
missing cells, removes exact-duplicate rows keeping the first occurrence,
then fills missing values per column dtype, and appends a log entry. -/
def clean_data (t : Table) (log : List LogEntry) : Table × List LogEntry :=
  let initial_rows := t.rows.length
  let initial_missing := (t.rows.map (fun r => (r.filter (· = Cell.null)).length)).sum
  let deduped := dedupKeepFirst t.rows
  let duplicates_removed := initial_rows - deduped.length
  let kinds := (List.range t.columns.length).map
    (fun i => colKind (deduped.map (fun r => cellAt r i)))
  let filled := deduped.map (fun r => List.zipWith fillCell kinds r)
  (⟨t.columns, filled⟩,
   log ++ [LogEntry.clean initial_rows filled.length duplicates_removed initial_missing])

/-- `dt.year` on one cell of a datetime64 column (NaT yields NaN). -/
def dtYearCell : Cell → Cell
  | Cell.date d => Cell.num d.year
  | _ => Cell.null

def dtMonthCell : Cell → Cell
  | Cell.date d => Cell.num d.month
  | _ => Cell.null

def dtQuarterCell : Cell → Cell
  | Cell.date d => Cell.num (((d.month + 2) / 3 : Nat) : ℚ)
  | _ => Cell.null

def dtDayOfWeekCell : Cell → Cell
  | Cell.date d => Cell.num (weekdayMon0 d)
  | _ => Cell.null

def dtWeekOfYearCell : Cell → Cell
  | Cell.date d => Cell.num (isoWeek d)
  | _ => Cell.null

/-- The five date-component column assignments of `add_calculated_fields`. -/
def addDateFields (t : Table) : Table :=
  let t1 := t.setCol "year" ((t.col "date").map dtYearCell)
  let t2 := t1.setCol "month" ((t1.col "date").map dtMonthCell)
  let t3 := t2.setCol "quarter" ((t2.col "date").map dtQuarterCell)
  let t4 := t3.setCol "day_of_week" ((t3.col "date").map dtDayOfWeekCell)
  t4.setCol "week_of_year" ((t4.col "date").map dtWeekOfYearCell)

/-- The profit / profit_margin assignments, guarded by the presence of the
revenue and cost columns. -/
def profitFields (t : Table) : Except Err (Table × List String) :=
  if t.columns.contains "revenue" && t.columns.contains "cost" then
    match zipWithE cellSub (t.col "revenue") (t.col "cost") with
    | Except.error e => Except.error e
    | Except.ok profits =>
      let t' := t.setCol "profit" profits
      match zipWithE profitMarginCell (t'.col "profit") (t'.col "revenue") with
      | Except.error e => Except.error e
      | Except.ok margins =>
        Except.ok (t'.setCol "profit_margin" margins, ["profit", "profit_margin"])
  else Except.ok (t, [])

/-- `(df['revenue'] / df['units_sold']).round(2)` for one row. -/
def avgUnitPriceCell (r u : Cell) : Except Err Cell :=
  match cellDiv r u with
  | Except.error e => Except.error e
  | Except.ok d => cellRound2 d

/-- The avg_unit_price assignment, guarded by revenue and units_sold. -/
def unitPriceFields (t : Table) : Except Err (Table × List String) :=
  if t.columns.contains "revenue" && t.columns.contains "units_sold" then
    match zipWithE avgUnitPriceCell (t.col "revenue") (t.col "units_sold") with
    | Except.error e => Except.error e
    | Except.ok prices => Except.ok (t.setCol "avg_unit_price" prices, ["avg_unit_price"])
  else Except.ok (t, [])

/-- `DataTransformer.add_calculated_fields`: date components are attempted
only for a column named exactly `date`, and the `.dt` accessor raises
unless that column is datetime64 — the source catches that exception and
skips the fields, so they are added only when the dtype is datetime. -/
def add_calculated_fields (t : Table) (log : List LogEntry) :
    Except Err (Table × List LogEntry) :=
  let p1 :=
    if t.columns.contains "date" && decide (colKind (t.col "date") = ColKind.datetime) then
      (addDateFields t, ["year", "month", "quarter", "day_of_week", "week_of_year"])
    else (t, [])
  match profitFields p1.1 with
  | Except.error e => Except.error e
  | Except.ok p2 =>
    match unitPriceFields p2.1 with
    | Except.error e => Except.error e
    | Except.ok p3 =>
      Except.ok (p3.1, log ++ [LogEntry.calculated (p1.2 ++ p2.2 ++ p3.2)])

/-- `df[col] > value` on one cell: NaN compares False, object (text) cells
raise `TypeError` against a float. -/
def cellGtScalar (c : Cell) (v : ℚ) : Except Err Bool :=
  match c with
  | Cell.num q => Except.ok (decide (v < q))
  | Cell.null => Except.ok false
  | Cell.posInf => Except.ok true
  | Cell.negInf => Except.ok false
  | _ => Except.error Err.typeError

/-- `df[col] < value` on one cell. -/
def cellLtScalar (c : Cell) (v : ℚ) : Except Err Bool :=
  match c with
  | Cell.num q => Except.ok (decide (q < v))
  | Cell.null => Except.ok false
  | Cell.posInf => Except.ok false
  | Cell.negInf => Except.ok true
  | _ => Except.error Err.typeError

/-- `df[col] == value` with a string value: only equal text cells match
(pandas equality between a number and a string is simply False). -/
def cellEqStr (c : Cell) (v : String) : Bool :=
  match c with
  | Cell.text s => decide (s = v)
  | _ => false

/-- Python-style string helpers, modelled at the code-point level (a
Python str is a sequence of code points; these definitions mirror the
`in`, `replace` and `strip` operations the source applies to condition
strings). -/
def charContains (s : String) (c : Char) : Bool :=
  s.data.contains c

/-- `condition.replace(c, '')` for a single-character pattern: removes
every occurrence. -/
def removeAllChar (s : String) (c : Char) : String :=
  ⟨s.data.filter (· ≠ c)⟩

/-- Python `str.strip()` (leading and trailing whitespace removed). -/
def trimChars (s : String) : String :=
  ⟨((s.data.dropWhile Char.isWhitespace).reverse.dropWhile
    Char.isWhitespace).reverse⟩

/-- Drops `pat` from the front of `l` if it is a prefix. -/
def dropPre : List Char → List Char → Option (List Char)
  | [], l => some l
  | _ :: _, [] => none
  | p :: ps, c :: cs => if p = c then dropPre ps cs else none

/-- Left-to-right non-overlapping removal of a pattern (fuel-indexed to
keep the recursion structural; the fuel is the input length). -/
def removeSubGo (pat : List Char) : Nat → List Char → List Char
  | 0, _ => []
  | _, [] => []
  | Nat.succ n, c :: rest =>
    match dropPre pat (c :: rest) with
    | some rest2 => removeSubGo pat n rest2
    | none => c :: removeSubGo pat n rest

/-- Python `s.replace(pat, '')` for a non-empty pattern. -/
def removeSubstr (s pat : String) : String :=
  ⟨removeSubGo pat.data s.data.length s.data⟩

/-- Python `pat in s` (substring containment). -/
def containsSub (pat : List Char) : List Char → Bool
  | [] => pat.isEmpty
  | c :: rest => (dropPre pat (c :: rest)).isSome || containsSub pat rest

def strContainsSubstr (s pat : String) : Bool :=
  containsSub pat.data s.data

/-- Boolean-mask row filtering whose per-cell test may raise. -/
def filterRowsE {α : Type} (p : α → Except Err Bool) : List α → Except Err (List α)
  | [] => Except.ok []
  | a :: l =>
    match p a with
    | Except.error e => Except.error e
    | Except.ok b =>
      match filterRowsE p l with
      | Except.error e => Except.error e
      | Except.ok l' => Except.ok (if b then a :: l' else l')

/-- Digit run to a natural number. -/
def parseDigits (cs : List Char) : Nat :=
  cs.foldl (fun n c => n * 10 + (c.toNat - 48)) 0

/-- Exponent suffix of a float literal. -/
def parseExpSuffix (m : ℚ) (cs : List Char) : Option ℚ :=
  let sg : ℤ × List Char :=
    match cs with
    | '+' :: r => (1, r)
    | '-' :: r => (-1, r)
    | r => (1, r)
  let ds := sg.2.takeWhile Char.isDigit
  let rest := sg.2.dropWhile Char.isDigit
  if ds.isEmpty || !rest.isEmpty then none
  else some (m * (10 : ℚ) ^ (sg.1 * (parseDigits ds : ℤ)))

/-- Unsigned part of a float literal: digits, optional fraction, optional
exponent; at least one digit is required (Python `float`). -/
def parseFloatAux (cs : List Char) : Option ℚ :=
  let ip := cs.takeWhile Char.isDigit
  let rest := cs.dropWhile Char.isDigit
  match rest with
  | [] => if ip.isEmpty then none else some (parseDigits ip)
  | '.' :: rest2 =>
    let fp := rest2.takeWhile Char.isDigit
    let rest3 := rest2.dropWhile Char.isDigit
    if ip.isEmpty && fp.isEmpty then none
    else
      let mant : ℚ := (parseDigits ip : ℚ) + (parseDigits fp : ℚ) / (10 : ℚ) ^ fp.length
      match rest3 with
      | [] => some mant
      | 'e' :: rest4 => parseExpSuffix mant rest4
      | 'E' :: rest4 => parseExpSuffix mant rest4
      | _ => none
  | 'e' :: rest2 => if ip.isEmpty then none else parseExpSuffix (parseDigits ip) rest2
  | 'E' :: rest2 => if ip.isEmpty then none else parseExpSuffix (parseDigits ip) rest2
  | _ => none

/-- Python `float(s)` on a decimal literal: leading/trailing whitespace is
ignored, an optional sign precedes the digits; a non-numeric string fails
(`ValueError`, the spec's InvalidConditionError). -/
def parseFloat? (s : String) : Option ℚ :=
  match (trimChars s).data with
  | '+' :: cs => parseFloatAux cs
  | '-' :: cs => (parseFloatAux cs).map (fun q => -q)
  | cs => parseFloatAux cs

/-- One condition applied to the current rows, exactly as the source parses
it: `>` has priority, then `<`, then `==`; a condition with none of the
three operators leaves the rows unchanged. -/
def applyCondRows (i : Nat) (cond : String) (rows : List (List Cell)) :
    Except Err (List (List Cell)) :=
  if charContains cond '>' then
    match parseFloat? (removeAllChar cond '>') with
    | none => Except.error Err.invalidCondition
    | some v => filterRowsE (fun r => cellGtScalar (cellAt r i) v) rows
  else if charContains cond '<' then
    match parseFloat? (removeAllChar cond '<') with
    | none => Except.error Err.invalidCondition
    | some v => filterRowsE (fun r => cellLtScalar (cellAt r i) v) rows
  else if strContainsSubstr cond "==" then
    Except.ok (rows.filter
      (fun r => cellEqStr (cellAt r i) (trimChars (removeSubstr cond "=="))))
  else Except.ok rows

/-- The condition loop of `filter_data`: conditions on absent columns are
silently skipped; each remaining condition re-filters the rows already
filtered by the previous ones. -/
def applyConds (t : Table) : List (String × String) → List (List Cell) →
    Except Err (List (List Cell))
  | [], rows => Except.ok rows
  | (c, cond) :: rest, rows =>
    match t.colIdx? c with
    | none => applyConds t rest rows
    | some i =>
      match applyCondRows i cond rows with
      | Except.error e => Except.error e
      | Except.ok rows' => applyConds t rest rows'

/-- `DataTransformer.filter_data`. -/
def filter_data (t : Table) (conditions : List (String × String))
    (log : List LogEntry) : Except Err (Table × List LogEntry) :=
  match applyConds t conditions t.rows with
  | Except.error e => Except.error e
  | Except.ok rows' =>
    Except.ok (⟨t.columns, rows'⟩,
      log ++ [LogEntry.filterStep t.rows.length rows'.length
        (t.rows.length - rows'.length)])

end TransformData

namespace TransformData

/-- Lexicographic strict comparison of character lists by code point (the
ordering pandas uses on text group keys). -/
def charListLt : List Char → List Char → Bool
  | [], [] => false
  | [], _ :: _ => true
  | _ :: _, [] => false
  | c :: cs, d :: ds =>
    if c.val.toNat < d.val.toNat then true
    else if d.val.toNat < c.val.toNat then false
    else charListLt cs ds

/-- Non-strict text ordering derived from the strict one. -/
def strLeB (a b : String) : Bool := !(charListLt b.data a.data)

/-- Comparison used by pandas when sorting group keys: numbers with
numbers, text with text, dates with dates; comparing across types raises
`TypeError` (encoded as no result). -/
def cellLe? : Cell → Cell → Option Bool
  | Cell.num a, Cell.num b => some (decide (a ≤ b))
  | Cell.text a, Cell.text b => some (strLeB a b)
  | Cell.date a, Cell.date b =>
    some (decide (a.year < b.year) || (decide (a.year = b.year) &&
      (decide (a.month < b.month) || (decide (a.month = b.month) &&
        decide (a.day ≤ b.day)))))
  | _, _ => none

/-- Lexicographic comparison of group keys (tuples of cell values). -/
def keyLe? : List Cell → List Cell → Option Bool
  | [], [] => some true
  | [], _ :: _ => some true
  | _ :: _, [] => some false
  | a :: as, b :: bs => if a = b then keyLe? as bs else cellLe? a b

/-- Ordered insertion of a group key into a sorted key list. -/
def insertKeyE (k : List Cell) : List (List Cell) → Except Err (List (List Cell))
  | [] => Except.ok [k]
  | k' :: rest =>
    match keyLe? k k' with
    | none => Except.error Err.typeError
    | some true => Except.ok (k :: k' :: rest)
    | some false =>
      match insertKeyE k rest with
      | Except.error e => Except.error e
      | Except.ok r => Except.ok (k' :: r)

/-- Ascending sort of the group keys (`groupby(..., sort=True)`, the pandas
default). -/
def sortKeysE : List (List Cell) → Except Err (List (List Cell))
  | [] => Except.ok []
  | k :: ks =>
    match sortKeysE ks with
    | Except.error e => Except.error e
    | Except.ok s => insertKeyE k s

def Cell.isText : Cell → Bool
  | Cell.text _ => true
  | _ => false

def cellNumVal : Cell → ℚ
  | Cell.num q => q
  | _ => 0

def cellTextVal : Cell → String
  | Cell.text s => s
  | _ => ""

/-- One aggregation operator applied to the cells of one group column.
Pandas skips missing values; `sum` of an all-missing group is 0, `mean`,
`min` and `max` of one are NaN; `sum` concatenates text; an unrecognized
operator name raises. -/
def aggOpE (op : String) (cells : List Cell) : Except Err Cell :=
  let nn := cells.filter (fun c => !(c == Cell.null))
  if op = "sum" then
    if nn.all Cell.isNum then Except.ok (Cell.num ((nn.map cellNumVal).sum))
    else if nn.all Cell.isText then
      Except.ok (Cell.text (String.join (nn.map cellTextVal)))
    else Except.error Err.typeError
  else if op = "mean" then
    if nn.isEmpty then Except.ok Cell.null
    else if nn.all Cell.isNum then
      Except.ok (Cell.num ((nn.map cellNumVal).sum / (nn.length : ℚ)))
    else Except.error Err.typeError
  else if op = "min" then
    if nn.isEmpty then Except.ok Cell.null
    else if nn.all Cell.isNum then
      Except.ok (Cell.num ((nn.map cellNumVal).foldl min ((nn.map cellNumVal).headD 0)))
    else if nn.all Cell.isText then
      Except.ok (Cell.text ((nn.map cellTextVal).foldl min ((nn.map cellTextVal).headD "")))
    else Except.error Err.typeError
  else if op = "max" then
    if nn.isEmpty then Except.ok Cell.null
    else if nn.all Cell.isNum then
      Except.ok (Cell.num ((nn.map cellNumVal).foldl max ((nn.map cellNumVal).headD 0)))
    else if nn.all Cell.isText then
      Except.ok (Cell.text ((nn.map cellTextVal).foldl max ((nn.map cellTextVal).headD "")))
    else Except.error Err.typeError
  else if op = "count" then Except.ok (Cell.num nn.length)
  else Except.error Err.keyError

/-- Column indices of the group-by columns (defined after the membership
check of `aggregate_data` has passed, so the default is never taken). -/
def rowKeyIdxs (t : Table) (gb : List String) : List Nat :=
  gb.map (fun c => (t.colIdx? c).getD 0)

/-- One output row of the aggregation: the group key followed by one
aggregated value per entry of the aggregation spec, in spec order. -/
def aggRowE (t : Table) (spec : List (String × String))
    (groupRows : List (List Cell)) (k : List Cell) : Except Err (List Cell) :=
  match mapE (fun p => aggOpE p.2
      (groupRows.map (fun r => cellAt r ((t.colIdx? p.1).getD 0)))) spec with
  | Except.error e => Except.error e
  | Except.ok vals => Except.ok (k ++ vals)

/-- `DataTransformer.aggregate_data`: `df.groupby(group_by).agg(agg_dict)
.reset_index()` followed by the log append.  The pandas defaults apply:
an empty `group_by` raises before anything else, rows whose key contains
a missing value are dropped (`dropna=True`), group keys are emitted in
ascending sorted order (`sort=True`), and the `reduction_percent` metric
divides by the input row count, raising `ZeroDivisionError` on an empty
input before the log entry is appended. -/
def aggregate_data (t : Table) (group_by : List String)
    (agg_spec : List (String × String)) (log : List LogEntry) :
    Except Err Table × List LogEntry :=
  if group_by.isEmpty then (Except.error Err.emptyGroupBy, log)
  else if !(group_by.all (fun c => t.columns.contains c)) then
    (Except.error Err.keyError, log)
  else if !(agg_spec.all (fun p => t.columns.contains p.1)) then
    (Except.error Err.keyError, log)
  else
    let idxs := rowKeyIdxs t group_by
    let rowsNN := t.rows.filter
      (fun r => (idxs.map (cellAt r)).all (fun c => !(c == Cell.null)))
    let keys := dedupKeepFirst (rowsNN.map (fun r => idxs.map (cellAt r)))
    match sortKeysE keys with
    | Except.error e => (Except.error e, log)
    | Except.ok skeys =>
      match mapE (fun k => aggRowE t agg_spec
          (rowsNN.filter (fun r => idxs.map (cellAt r) == k)) k) skeys with
      | Except.error e => (Except.error e, log)
      | Except.ok outRows =>
        if t.rows.length = 0 then (Except.error Err.divisionByZero, log)
        else
          (Except.ok ⟨group_by ++ agg_spec.map Prod.fst, outRows⟩,
           log ++ [LogEntry.aggregate group_by t.rows.length outRows.length
             (round2 ((1 - (outRows.length : ℚ) / (t.rows.length : ℚ)) * 100))])

end TransformData

namespace Pipeline

/-- `DataTransformer.clean_data` of `src/etl/pipeline.py`: drops duplicate
rows keeping the first occurrence, then drops rows whose revenue cell is
missing (`dropna(subset=['revenue'])`) when a revenue column exists. -/
def clean_data (t : Table) : Table :=
  let deduped := dedupKeepFirst t.rows
  match t.colIdx? "revenue" with
  | some i => ⟨t.columns, deduped.filter (fun r => !(cellAt r i == Cell.null))⟩
  | none => ⟨t.columns, deduped⟩

/-- `(df[revenue_col] * margin_rate).round(2)` for one cell. -/
def marginCell (rate : ℚ) (c : Cell) : Except Err Cell :=
  match cellMulScalar c rate with
  | Except.error e => Except.error e
  | Except.ok m => cellRound2 m

/-- `DataTransformer.calculate_profit_margin`: raises `ValueError` when the
revenue column is absent, otherwise adds `profit_margin = (revenue *
margin_rate).round(2)`. -/
def calculate_profit_margin (t : Table) (revenue_col : String) (margin_rate : ℚ) :
    Except Err Table :=
  if t.columns.contains revenue_col then
    match mapE (marginCell margin_rate) (t.col revenue_col) with
    | Except.error e => Except.error e
    | Except.ok cells => Except.ok (t.setCol "profit_margin" cells)
  else Except.error (Err.columnNotFound revenue_col)

/-- Revenue cell as a plain number for ranking; `rank().astype(int)` needs
every value finite and numeric (NaN or non-numeric values raise). -/
def toNumE : Cell → Except Err ℚ
  | Cell.num q => Except.ok q
  | _ => Except.error Err.typeError

/-- Descending insertion used for the dense ranks. -/
def insertDesc (q : ℚ) : List ℚ → List ℚ
  | [] => [q]
  | x :: xs => if x < q then q :: x :: xs else x :: insertDesc q xs

/-- Distinct revenue values in descending order. -/
def sortDesc (l : List ℚ) : List ℚ :=
  l.foldr insertDesc []

/-- `rank(ascending=False, method='dense')`: position of the value among
the distinct values in descending order, starting at 1. -/
def denseRankDesc (vals : List ℚ) (q : ℚ) : Nat :=
  (sortDesc (dedupKeepFirst vals)).indexOf q + 1

/-- `DataTransformer.calculate_statistics`: when a revenue column exists,
adds a dense descending revenue rank and each row's percentage of total
revenue (numpy division semantics for a zero total), both as in the
source; without a revenue column the table passes through unchanged. -/
def calculate_statistics (t : Table) : Except Err Table :=
  if t.columns.contains "revenue" then
    match mapE toNumE (t.col "revenue") with
    | Except.error e => Except.error e
    | Except.ok nums =>
      let t1 := t.setCol "revenue_rank"
        (nums.map (fun q => Cell.num (denseRankDesc nums q)))
      let total := nums.sum
      let pct := fun (q : ℚ) =>
        if total = 0 then
          if q = 0 then Cell.null
          else if 0 < q then Cell.posInf else Cell.negInf
        else Cell.num (round2 (q / total * 100))
      Except.ok (t1.setCol "revenue_percentage" (nums.map pct))
  else Except.ok t

/-- `DataTransformer.add_metadata`: stamps the wall-clock timestamp (passed
in as a parameter; the source reads `datetime.now()`) and the processing
version on every row. -/
def add_metadata (t : Table) (now : String) : Table :=
  (t.setCol "processed_timestamp" (List.replicate t.rows.length (Cell.text now))).setCol
    "processing_version" (List.replicate t.rows.length (Cell.text "v1.0"))

/-- A blob store, modelled at table granularity: the CSV parse/serialize
adapters are out of scope for the orchestration claims, so blobs hold the
parsed tables directly. -/
def Store : Type := List (String × Table)

/-- `DataExtractor.extract_csv`: raises `FileNotFoundError` when the blob
is absent. -/
def extract_csv (raw : Store) (name : String) : Except Err Table :=
  match raw.lookup name with
  | some t => Except.ok t
  | none => Except.error (Err.notFound name)

/-- `DataLoader.load_csv`: unconditional overwrite of the named blob. -/
def load_csv (processed : Store) (name : String) (t : Table) : Store :=
  (name, t) :: processed.filter (fun p => !(p.1 == name))

/-- Outcome of one pipeline run: the returned table or the propagated
error, the processed-bucket store after the run, and the names of the
steps that completed (the run log). -/
structure RunResult where
  result : Except Err Table
  processed : Store
  steps : List String

/-- `ETLPipeline.run_pipeline`: extract, then clean → profit margin →
(statistics when requested) → metadata, then load; the `except` clause
re-raises the first failure, so any step error aborts the remainder of the
run with nothing written to the processed bucket, while the log lines of
the steps already completed remain. -/
def run_pipeline (raw processed : Store) (input_file : String)
    (output_file : Option String) (add_stats : Bool) (now : String) : RunResult :=
  let outName := output_file.getD ("processed_" ++ input_file)
  match extract_csv raw input_file with
  | Except.error e => ⟨Except.error e, processed, []⟩
  | Except.ok df =>
    let df1 := clean_data df
    let log1 := ["extract", "clean_data"]
    match calculate_profit_margin df1 "revenue" (3 / 10) with
    | Except.error e => ⟨Except.error e, processed, log1⟩
    | Except.ok df2 =>
      let log2 := log1 ++ ["calculate_profit_margin"]
      match (if add_stats then calculate_statistics df2 else Except.ok df2) with
      | Except.error e => ⟨Except.error e, processed, log2⟩
      | Except.ok df3 =>
        let log3 := log2 ++ (if add_stats then ["calculate_statistics"] else [])
        let df4 := add_metadata df3 now
        ⟨Except.ok df4, load_csv processed outName df4,
         log3 ++ ["add_metadata", "load"]⟩

end Pipeline

namespace TransformData

/-- Ascending order on group keys, as a proposition. -/
def keyLeP (x y : List Cell) : Prop := keyLe? x y = some true
/-- Total counterpart of elementwise subtraction on numeric columns
(missing values propagate). -/
def subNN : Cell → Cell → Cell
  | Cell.num a, Cell.num b => Cell.num (a - b)
  | _, _ => Cell.null
/-- Total counterpart of the profit-margin computation on numeric columns:
numpy division-by-zero semantics, then scaling and rounding. -/
def marginNN : Cell → Cell → Cell
  | Cell.num p, Cell.num r =>
    if r = 0 then
      (if p = 0 then Cell.null else if 0 < p then Cell.posInf else Cell.negInf)
    else Cell.num (round2 (p / r * 100))
  | _, _ => Cell.null
/-- What it means for one row to satisfy one condition, read off the same
parse the source performs: `>` first, then `<`, then `==`; a condition
with none of the three operators constrains nothing. -/
def condHolds (t : Table) (r : List Cell) (c cond : String) : Bool :=
  match t.colIdx? c with
  | none => true
  | some i =>
    if charContains cond '>' then
      match parseFloat? (removeAllChar cond '>') with
      | none => false
      | some v =>
        match cellGtScalar (cellAt r i) v with
        | Except.error _ => false
        | Except.ok b => b
    else if charContains cond '<' then
      match parseFloat? (removeAllChar cond '<') with
      | none => false
      | some v =>
        match cellLtScalar (cellAt r i) v with
        | Except.error _ => false
        | Except.ok b => b
    else if strContainsSubstr cond "==" then
      cellEqStr (cellAt r i) (trimChars (removeSubstr cond "=="))
    else true
end TransformData

/-- No cell of the table is missing. -/
def Table.noNulls (t : Table) : Prop :=
  ∀ r ∈ t.rows, ∀ c ∈ r, c ≠ Cell.null
instance (t : Table) : Decidable t.noNulls := by
  unfold Table.noNulls; infer_instance
/-- The 5-row revenue/cost input of the spec's clean_data scenario. -/
def sampleC1 : Table :=
  ⟨["revenue", "cost"],
   [[Cell.num 1000, Cell.num 600], [Cell.num 1500, Cell.num 900],
    [Cell.num 1000, Cell.num 600], [Cell.num 800, Cell.num 500],
    [Cell.null, Cell.num 400]]⟩
/-- A table on which filling missing values creates a duplicate. -/
def tC2 : Table := ⟨["revenue"], [[Cell.num 0], [Cell.null]]⟩
/-- The input of the C4 counterexample: category b appears before a. -/
def tC4 : Table :=
  ⟨["category", "revenue"],
   [[Cell.text "b", Cell.num 1], [Cell.text "a", Cell.num 2]]⟩
/-- The input of the C5 counterexample: a row whose group key is null. -/
def tC5 : Table :=
  ⟨["category", "revenue"],
   [[Cell.null, Cell.num 5], [Cell.text "a", Cell.num 1]]⟩
/-- The input of the C10 counterexample: a column named `date` whose cells
are text (not coerced to datetime). -/
def tC10 : Table := ⟨["date"], [[Cell.text "2024-01-01"]]⟩
/-- The input of the C10 witness: a genuine datetime `date` column. -/
def tW10 : Table := ⟨["date"], [[Cell.date ⟨2024, 1, 1⟩]]⟩
/-- The input of the C3 counterexample: a zero-revenue row with nonzero
cost. -/
def tC3 : Table := ⟨["revenue", "cost"], [[Cell.num 0, Cell.num 5]]⟩
/-- The input of the C3 witness: a zero-revenue row and a regular row. -/
def tW3 : Table :=
  ⟨["revenue", "cost"], [[Cell.num 0, Cell.num 5], [Cell.num 1000, Cell.num 600]]⟩
/-- The cleaned 3-row table of the spec's filter scenario. -/
def tScen : Table :=
  ⟨["revenue", "cost"],
   [[Cell.num 1000, Cell.num 600], [Cell.num 1500, Cell.num 900],
    [Cell.num 800, Cell.num 500]]⟩
/-- A one-column table with no revenue column: its extraction succeeds but
`calculate_profit_margin` fails, aborting the run. -/
def tNoRev : Table := ⟨["sales"], [[Cell.num 5]]⟩
theorem dedupGo_mem {α : Type} [DecidableEq α] {l seen : List α} {x : α} :
    x ∈ dedupGo seen l ↔ x ∈ l ∧ x ∉ seen := by
  induction l generalizing seen with
  | nil => simp [dedupGo]
  | cons a l ih =>
    by_cases ha : a ∈ seen
    · simp only [dedupGo, if_pos ha, ih, List.mem_cons]
      constructor
      · exact fun h => ⟨Or.inr h.1, h.2⟩
      · rintro ⟨h1 | h1, h2⟩
        · exact absurd (h1 ▸ ha) h2
        · exact ⟨h1, h2⟩
    · simp only [dedupGo, if_neg ha, List.mem_cons, ih]
      by_cases hx : x = a
      · subst hx
        simp [ha]
      · simp [hx, List.mem_cons]
theorem dedupGo_sublist {α : Type} [DecidableEq α] (seen l : List α) :
    (dedupGo seen l).Sublist l := by
  induction l generalizing seen with
  | nil => simp [dedupGo]
  | cons a l ih =>
    by_cases ha : a ∈ seen
    · simp only [dedupGo, if_pos ha]
      exact (ih seen).cons a
    · simp only [dedupGo, if_neg ha]
      exact (ih (a :: seen)).cons₂ a
theorem dedupGo_nodup {α : Type} [DecidableEq α] (seen l : List α) :
    (dedupGo seen l).Nodup := by
  induction l generalizing seen with
  | nil => simp [dedupGo]
  | cons a l ih =>
    by_cases ha : a ∈ seen
    · simp only [dedupGo, if_pos ha]
      exact ih seen
    · simp only [dedupGo, if_neg ha]
      refine List.nodup_cons.mpr ⟨?_, ih (a :: seen)⟩
      intro hmem
      exact (dedupGo_mem.mp hmem).2 (List.mem_cons_self a seen)
theorem dedupGo_of_nodup {α : Type} [DecidableEq α] {l : List α}
    (seen : List α) (h : l.Nodup) (hdisj : ∀ x ∈ l, x ∉ seen) :
    dedupGo seen l = l := by
  induction l generalizing seen with
  | nil => simp [dedupGo]
  | cons a l ih =>
    rcases List.nodup_cons.mp h with ⟨hal, hl⟩
    have ha : a ∉ seen := hdisj a (List.mem_cons_self a l)
    simp only [dedupGo, if_neg ha]
    congr 1
    apply ih (a :: seen) hl
    intro x hx
    simp only [List.mem_cons]
    rintro (rfl | hxs)
    · exact hal hx
    · exact hdisj x (List.mem_cons_of_mem a hx) hxs
theorem dedupKeepFirst_sublist {α : Type} [DecidableEq α] (l : List α) :
    (dedupKeepFirst l).Sublist l :=
  dedupGo_sublist [] l
theorem dedupKeepFirst_mem {α : Type} [DecidableEq α] {l : List α} {x : α} :
    x ∈ dedupKeepFirst l ↔ x ∈ l := by
  unfold dedupKeepFirst
  rw [dedupGo_mem]
  simp
theorem dedupKeepFirst_nodup {α : Type} [DecidableEq α] (l : List α) :
    (dedupKeepFirst l).Nodup :=
  dedupGo_nodup [] l
theorem dedupKeepFirst_of_nodup {α : Type} [DecidableEq α] {l : List α}
    (h : l.Nodup) : dedupKeepFirst l = l :=
  dedupGo_of_nodup [] h (by simp)
theorem mapE_eq_ok_of_pointwise {α β : Type} (f : α → Except Err β)
    (g : α → β) {l : List α} (h : ∀ a ∈ l, f a = Except.ok (g a)) :
    mapE f l = Except.ok (l.map g) := by
  induction l with
  | nil => rfl
  | cons a l ih =>
    have ha := h a (List.mem_cons_self a l)
    have hl := ih (fun x hx => h x (List.mem_cons_of_mem a hx))
    simp [mapE, ha, hl]
theorem mapE_length {α β : Type} {f : α → Except Err β} {l : List α}
    {l' : List β} (h : mapE f l = Except.ok l') : l'.length = l.length := by
  induction l generalizing l' with
  | nil => simp [mapE] at h; simp [← h]
  | cons a l ih =>
    simp only [mapE] at h
    cases hfa : f a with
    | error e => rw [hfa] at h; exact absurd h (by simp)
    | ok b =>
      rw [hfa] at h
      cases hl : mapE f l with
      | error e => rw [hl] at h; exact absurd h (by simp)
      | ok bs =>
        rw [hl] at h
        cases h
        simp [ih hl]
theorem zipWithE_eq_ok_of_pointwise {α β γ : Type} (f : α → β → Except Err γ)
    (g : α → β → γ) {la : List α} {lb : List β}
    (h : ∀ a ∈ la, ∀ b ∈ lb, f a b = Except.ok (g a b)) :
    zipWithE f la lb = Except.ok (List.zipWith g la lb) := by
  induction la generalizing lb with
  | nil => cases lb <;> rfl
  | cons a as ih =>
    cases lb with
    | nil => rfl
    | cons b bs =>
      have hab := h a (List.mem_cons_self a as) b (List.mem_cons_self b bs)
      have hrest := ih (fun x hx y hy =>
        h x (List.mem_cons_of_mem a hx) y (List.mem_cons_of_mem b hy))
      simp [zipWithE, hab, hrest]
theorem colIdx?_lt {t : Table} {c : String} {i : Nat}
    (h : t.colIdx? c = some i) : i < t.columns.length :=
  (List.findIdx?_eq_some_iff_findIdx_eq.mp h).1

theorem colIdx?_getElem {t : Table} {c : String} {i : Nat}
    (h : t.colIdx? c = some i) (hi : i < t.columns.length) :
    t.columns[i] = c := by
  obtain ⟨hlt, hfind⟩ := List.findIdx?_eq_some_iff_findIdx_eq.mp h
  have hw : t.columns.findIdx (fun x => decide (x = c)) < t.columns.length :=
    hfind ▸ hlt
  have := @List.findIdx_getElem _ (fun x => decide (x = c)) t.columns hw
  simp only [decide_eq_true_eq] at this
  rw [← this]
  congr 1
  exact hfind.symm

theorem colIdx?_eq_none {t : Table} {c : String} (h : c ∉ t.columns) :
    t.colIdx? c = none := by
  apply List.findIdx?_eq_none_iff.mpr
  intro x hx
  simp only [decide_eq_false_iff_not]
  intro hxc
  exact h (hxc ▸ hx)

theorem colIdx?_isSome_of_mem {t : Table} {c : String} (h : c ∈ t.columns) :
    ∃ i, t.colIdx? c = some i := by
  cases hidx : t.colIdx? c with
  | some i => exact ⟨i, rfl⟩
  | none =>
    have := List.findIdx?_eq_none_iff.mp hidx c h
    simp at this

theorem mem_of_colIdx?_eq_some {t : Table} {c : String} {i : Nat}
    (h : t.colIdx? c = some i) : c ∈ t.columns := by
  have hlt := colIdx?_lt h
  have := colIdx?_getElem h hlt
  exact this ▸ List.getElem_mem hlt

theorem length_col {t : Table} {c : String} {i : Nat}
    (h : t.colIdx? c = some i) : (t.col c).length = t.rows.length := by
  simp [Table.col, h]

/-- Members of a zipWith arise from members of both lists. -/
theorem mem_zipWith {α β γ : Type} {f : α → β → γ} {l1 : List α}
    {l2 : List β} {x : γ} (h : x ∈ List.zipWith f l1 l2) :
    ∃ a ∈ l1, ∃ b ∈ l2, x = f a b := by
  induction l1 generalizing l2 with
  | nil => simp at h
  | cons a as ih =>
    cases l2 with
    | nil => simp at h
    | cons b bs =>
      simp only [List.zipWith_cons_cons, List.mem_cons] at h
      cases h with
      | inl hx => exact ⟨a, List.mem_cons_self a as, b, List.mem_cons_self b bs, hx⟩
      | inr hx =>
        obtain ⟨a', ha', b', hb', hx'⟩ := ih hx
        exact ⟨a', List.mem_cons_of_mem a ha', b', List.mem_cons_of_mem b hb', hx'⟩

theorem WF_setCol {t : Table} {c : String} {cells : List Cell}
    (hwf : t.WF) (_hlen : cells.length = t.rows.length) :
    (t.setCol c cells).WF := by
  unfold Table.setCol
  cases hidx : t.colIdx? c with
  | some i =>
    intro r hr
    obtain ⟨row, hrow, cl, _, hreq⟩ := mem_zipWith hr
    simp only [hreq, List.length_set]
    exact hwf row hrow
  | none =>
    intro r hr
    obtain ⟨row, hrow, cl, _, hreq⟩ := mem_zipWith hr
    simp only [hreq, List.length_append, List.length_cons, List.length_nil]
    simp [hwf row hrow]

theorem rows_length_setCol {t : Table} {c : String} {cells : List Cell}
    (hlen : cells.length = t.rows.length) :
    (t.setCol c cells).rows.length = t.rows.length := by
  unfold Table.setCol
  cases t.colIdx? c <;> simp [List.length_zipWith, hlen]

theorem columns_setCol_of_mem {t : Table} {c : String} {i : Nat}
    (h : t.colIdx? c = some i) (cells : List Cell) :
    (t.setCol c cells).columns = t.columns := by
  simp [Table.setCol, h]

theorem columns_setCol_of_not_mem {t : Table} {c : String}
    (h : t.colIdx? c = none) (cells : List Cell) :
    (t.setCol c cells).columns = t.columns ++ [c] := by
  simp [Table.setCol, h]

theorem colIdx?_setCol_new {t : Table} {c : String} {cells : List Cell}
    (h : t.colIdx? c = none) :
    (t.setCol c cells).colIdx? c = some t.columns.length := by
  unfold Table.colIdx?
  rw [columns_setCol_of_not_mem h, List.findIdx?_append]
  unfold Table.colIdx? at h
  rw [h]
  simp [List.findIdx?]

theorem col_setCol_self_new {t : Table} {c : String} {cells : List Cell}
    (hwf : t.WF) (hidx : t.colIdx? c = none)
    (hlen : cells.length = t.rows.length) :
    (t.setCol c cells).col c = cells := by
  have hidx' := @colIdx?_setCol_new t c cells hidx
  have hrows : (t.setCol c cells).rows =
      List.zipWith (fun r cl => r ++ [cl]) t.rows cells := by
    simp [Table.setCol, hidx]
  simp only [Table.col, hidx', hrows]
  rw [List.map_zipWith]
  apply List.ext_getElem
  · simp [List.length_zipWith, hlen]
  · intro n h1 h2
    simp only [List.length_zipWith, hlen, min_self] at h1
    rw [List.getElem_zipWith]
    have hrowlen : t.rows[n].length = t.columns.length :=
      hwf _ (List.getElem_mem _)
    simp only [cellAt]
    rw [List.getD_eq_getElem _ _ (by simp [hrowlen])]
    rw [List.getElem_append_right (by simp [hrowlen])]
    simp [hrowlen]

theorem col_setCol_self_existing {t : Table} {c : String} {i : Nat}
    {cells : List Cell} (hwf : t.WF) (hidx : t.colIdx? c = some i)
    (hlen : cells.length = t.rows.length) :
    (t.setCol c cells).col c = cells := by
  have hcols := columns_setCol_of_mem hidx cells
  have hidx' : (t.setCol c cells).colIdx? c = some i := by
    unfold Table.colIdx?
    rw [hcols]
    exact hidx
  have hrows : (t.setCol c cells).rows =
      List.zipWith (fun r cl => r.set i cl) t.rows cells := by
    simp [Table.setCol, hidx]
  simp only [Table.col, hidx', hrows]
  rw [List.map_zipWith]
  apply List.ext_getElem
  · simp [List.length_zipWith, hlen]
  · intro n h1 h2
    simp only [List.length_zipWith, hlen, min_self] at h1
    rw [List.getElem_zipWith]
    have hrowlen : t.rows[n].length = t.columns.length :=
      hwf _ (List.getElem_mem _)
    have hi : i < t.rows[n].length := hrowlen ▸ colIdx?_lt hidx
    simp only [cellAt]
    rw [List.getD_eq_getElem _ _ (by simp [hi])]
    rw [List.getElem_set_self]

theorem col_setCol_other {t : Table} {c c' : String} {cells : List Cell}
    (hwf : t.WF) (hne : c' ≠ c) (hlen : cells.length = t.rows.length) :
    (t.setCol c cells).col c' = t.col c' := by
  cases hidx : t.colIdx? c with
  | some i =>
    have hcols := columns_setCol_of_mem hidx cells
    have hrows : (t.setCol c cells).rows =
        List.zipWith (fun r cl => r.set i cl) t.rows cells := by
      simp [Table.setCol, hidx]
    have hidx' : (t.setCol c cells).colIdx? c' = t.colIdx? c' := by
      unfold Table.colIdx?
      rw [hcols]
    cases hidx2 : t.colIdx? c' with
    | none => simp [Table.col, hidx', hidx2]
    | some j =>
      have hij : i ≠ j := by
        intro heq
        apply hne
        have h1 := colIdx?_getElem hidx (colIdx?_lt hidx)
        have h2 := colIdx?_getElem hidx2 (colIdx?_lt hidx2)
        rw [← h2, ← h1]
        congr 1
        exact heq.symm
      simp only [Table.col, hidx', hidx2, hrows]
      rw [List.map_zipWith]
      apply List.ext_getElem
      · simp [List.length_zipWith, hlen]
      · intro n h1 h2
        simp only [List.length_zipWith, hlen, min_self] at h1
        rw [List.getElem_zipWith, List.getElem_map]
        have hrowlen : t.rows[n].length = t.columns.length :=
          hwf _ (List.getElem_mem _)
        have hj : j < t.rows[n].length := hrowlen ▸ colIdx?_lt hidx2
        simp only [cellAt]
        rw [List.getD_eq_getElem _ _ (by simp [hj]),
          List.getD_eq_getElem _ _ hj]
        exact List.getElem_set_ne hij _
  | none =>
    have hcols := columns_setCol_of_not_mem hidx cells
    have hrows : (t.setCol c cells).rows =
        List.zipWith (fun r cl => r ++ [cl]) t.rows cells := by
      simp [Table.setCol, hidx]
    have hidx' : (t.setCol c cells).colIdx? c' = t.colIdx? c' := by
      unfold Table.colIdx?
      rw [hcols, List.findIdx?_append]
      cases hidx2 : List.findIdx? (fun x => decide (x = c')) t.columns with
      | some j => rfl
      | none =>
        simp only [Option.none_or]
        simp [List.findIdx?, hne.symm]
    cases hidx2 : t.colIdx? c' with
    | none => simp [Table.col, hidx', hidx2]
    | some j =>
      simp only [Table.col, hidx', hidx2, hrows]
      rw [List.map_zipWith]
      apply List.ext_getElem
      · simp [List.length_zipWith, hlen]
      · intro n h1 h2
        simp only [List.length_zipWith, hlen, min_self] at h1
        rw [List.getElem_zipWith, List.getElem_map]
        have hrowlen : t.rows[n].length = t.columns.length :=
          hwf _ (List.getElem_mem _)
        have hj : j < t.rows[n].length := hrowlen ▸ colIdx?_lt hidx2
        simp only [cellAt]
        rw [List.getD_eq_getElem _ _
            (by simp only [List.length_append, List.length_cons,
              List.length_nil]; omega),
          List.getD_eq_getElem _ _ hj]
        exact List.getElem_append_left hj




/-- C1 counterexample: on the spec's 5-row scenario input, the transform
module's `clean_data` keeps 4 rows, not 3 — it fills the missing revenue
with 0 (the filled row survives) instead of dropping that row. -/
theorem clean_data_sample_keeps_four_rows :
    (TransformData.clean_data sampleC1 []).1.rows.length = 4 ∧
    (TransformData.clean_data sampleC1 []).1.rows.length ≠ 3 ∧
    [Cell.num 0, Cell.num 400] ∈ (TransformData.clean_data sampleC1 []).1.rows := by
  decide

/-- C1 (amended): the pipeline module's `clean_data` behaves as the claim
says — it removes exact-duplicate rows keeping the first occurrence
(output rows are a duplicate-free subsequence of the input containing
every non-null-revenue input row) and removes exactly the rows whose
revenue cell is missing; on the spec's 5-row scenario input exactly the
3 expected rows remain. -/
theorem pipeline_clean_data_removes_dups_and_null_revenue (t : Table)
    (i : Nat) (h : t.colIdx? "revenue" = some i) :
    (Pipeline.clean_data t).rows.Nodup ∧
    (Pipeline.clean_data t).rows.Sublist t.rows ∧
    (∀ r ∈ (Pipeline.clean_data t).rows, cellAt r i ≠ Cell.null) ∧
    (∀ r ∈ t.rows, cellAt r i ≠ Cell.null → r ∈ (Pipeline.clean_data t).rows) ∧
    (Pipeline.clean_data sampleC1).rows =
      [[Cell.num 1000, Cell.num 600], [Cell.num 1500, Cell.num 900],
       [Cell.num 800, Cell.num 500]] := by
  refine ⟨?_, ?_, ?_, ?_, by decide⟩
  · simp only [Pipeline.clean_data, h]
    exact (dedupKeepFirst_nodup t.rows).filter _
  · simp only [Pipeline.clean_data, h]
    exact (List.filter_sublist _).trans (dedupKeepFirst_sublist t.rows)
  · simp only [Pipeline.clean_data, h]
    intro r hr
    have := (List.mem_filter.mp hr).2
    simpa using this
  · simp only [Pipeline.clean_data, h]
    intro r hr hnull
    apply List.mem_filter.mpr
    refine ⟨dedupKeepFirst_mem.mpr hr, ?_⟩
    simpa using hnull

/-- Witness for the amended C1 theorem at the spec's concrete 5-row input. -/
theorem pipeline_clean_data_removes_dups_and_null_revenue_witness :
    (Pipeline.clean_data sampleC1).rows =
      [[Cell.num 1000, Cell.num 600], [Cell.num 1500, Cell.num 900],
       [Cell.num 800, Cell.num 500]] ∧
    (Pipeline.clean_data sampleC1).rows.Nodup :=
  have h := pipeline_clean_data_removes_dups_and_null_revenue sampleC1 0 (by decide)
  ⟨h.2.2.2.2, h.1⟩


/-- C2 counterexample: `clean_data` is not idempotent — filling the missing
revenue with 0 makes the second row a duplicate of the first, so a second
application removes one further row. -/
theorem clean_data_not_idempotent :
    (TransformData.clean_data (TransformData.clean_data tC2 []).1 []).1 ≠
      (TransformData.clean_data tC2 []).1 ∧
    (TransformData.clean_data tC2 []).1.rows.length = 2 ∧
    (TransformData.clean_data (TransformData.clean_data tC2 []).1 []).1.rows.length = 1 := by
  decide

/-- Filling changes nothing in a row with no missing cells. -/
theorem zipWith_fillCell_id : ∀ (kinds : List ColKind) (r : List Cell),
    (∀ c ∈ r, c ≠ Cell.null) → r.length ≤ kinds.length →
    List.zipWith TransformData.fillCell kinds r = r
  | _, [], _, _ => by simp
  | [], _ :: _, _, hlen => by simp at hlen
  | k :: ks, c :: cs, hnn, hlen => by
    simp only [List.zipWith_cons_cons]
    have hc : TransformData.fillCell k c = c := by
      have hcn : c ≠ Cell.null := hnn c (List.mem_cons_self c cs)
      cases c <;> simp [TransformData.fillCell] at hcn ⊢
    rw [hc]
    congr 1
    exact zipWith_fillCell_id ks cs
      (fun x hx => hnn x (List.mem_cons_of_mem c hx))
      (by simp only [List.length_cons] at hlen; omega)

/-- On a table with no missing cells, `clean_data` only removes duplicate
rows (the fill steps change nothing). -/
theorem clean_data_eq_dedup_of_no_nulls (t : Table) (log : List LogEntry)
    (hwf : t.WF) (hnn : t.noNulls) :
    (TransformData.clean_data t log).1 = ⟨t.columns, dedupKeepFirst t.rows⟩ := by
  unfold TransformData.clean_data
  simp only []
  congr 1
  have hmap : ∀ r ∈ dedupKeepFirst t.rows,
      List.zipWith TransformData.fillCell
        ((List.range t.columns.length).map
          (fun i => colKind ((dedupKeepFirst t.rows).map (fun r => cellAt r i)))) r = r := by
    intro r hr
    have hrmem : r ∈ t.rows := dedupKeepFirst_mem.mp hr
    apply zipWith_fillCell_id _ _ (hnn r hrmem)
    rw [hwf r hrmem]
    simp
  calc (dedupKeepFirst t.rows).map _ = (dedupKeepFirst t.rows).map id := by
        exact List.map_congr_left hmap
    _ = dedupKeepFirst t.rows := List.map_id _

/-- C2 (amended): on inputs with no missing cells `clean_data` is
idempotent (it reduces to duplicate removal, which is); in general a
second application can remove further rows, because filling missing
values may collapse two previously distinct rows into duplicates. -/
theorem clean_data_idempotent_of_no_nulls (t : Table) (log log' : List LogEntry)
    (hwf : t.WF) (hnn : t.noNulls) :
    (TransformData.clean_data (TransformData.clean_data t log).1 log').1 =
      (TransformData.clean_data t log).1 := by
  have h1 := clean_data_eq_dedup_of_no_nulls t log hwf hnn
  have hwf2 : (⟨t.columns, dedupKeepFirst t.rows⟩ : Table).WF := by
    intro r hr
    exact hwf r (dedupKeepFirst_mem.mp hr)
  have hnn2 : (⟨t.columns, dedupKeepFirst t.rows⟩ : Table).noNulls := by
    intro r hr
    exact hnn r (dedupKeepFirst_mem.mp hr)
  rw [h1]
  rw [clean_data_eq_dedup_of_no_nulls _ log' hwf2 hnn2]
  simp only
  congr 1
  exact dedupKeepFirst_of_nodup (dedupKeepFirst_nodup _)

/-- Witness for the amended C2 theorem on a concrete null-free table. -/
theorem clean_data_idempotent_of_no_nulls_witness :
    (TransformData.clean_data
      (TransformData.clean_data ⟨["revenue"], [[Cell.num 1], [Cell.num 1]]⟩ []).1 []).1 =
    (TransformData.clean_data ⟨["revenue"], [[Cell.num 1], [Cell.num 1]]⟩ []).1 :=
  clean_data_idempotent_of_no_nulls ⟨["revenue"], [[Cell.num 1], [Cell.num 1]]⟩
    [] [] (by decide) (by decide)

/-- C7: `aggregate_data` with an empty group_by list raises (the groupby
call rejects an empty key list before anything is computed), and the
transformation log gains no entry for the call. -/
theorem aggregate_data_empty_group_by (t : Table)
    (agg_spec : List (String × String)) (log : List LogEntry) :
    TransformData.aggregate_data t [] agg_spec log =
      (Except.error Err.emptyGroupBy, log) := by
  simp [TransformData.aggregate_data]

/-- C9: on an empty table with a non-empty group_by over existing columns,
`aggregate_data` raises `ZeroDivisionError` computing the
`reduction_percent` metric (division by the zero input row count) instead
of returning the empty aggregated table; the log gains no entry. -/
theorem aggregate_data_empty_table_division_by_zero (t : Table)
    (gb : List String) (spec : List (String × String)) (log : List LogEntry)
    (hrows : t.rows = []) (hgb : gb ≠ [])
    (hgbcols : gb.all (fun c => t.columns.contains c) = true)
    (hspeccols : spec.all (fun p => t.columns.contains p.1) = true) :
    TransformData.aggregate_data t gb spec log =
      (Except.error Err.divisionByZero, log) := by
  unfold TransformData.aggregate_data
  have hne : gb.isEmpty = false := by
    cases gb with
    | nil => exact absurd rfl hgb
    | cons a l => rfl
  simp at hgbcols hspeccols
  simp only [hne, Bool.false_eq_true, if_false, hrows]
  have h1 : (gb.all fun c => t.columns.contains c) = true := by
    rw [List.all_eq_true]
    intro c hc
    simpa using hgbcols c hc
  have h2 : (spec.all fun p => t.columns.contains p.1) = true := by
    rw [List.all_eq_true]
    intro p hp
    simpa using hspeccols p.1 p.2 hp
  rw [if_neg (by simp; exact hgbcols), if_neg (by simp; exact hspeccols)]
  simp [dedupKeepFirst, dedupGo, TransformData.sortKeysE, mapE]

/-- Witness for the C9 theorem at a concrete empty table. -/
theorem aggregate_data_empty_table_division_by_zero_witness :
    TransformData.aggregate_data ⟨["category", "revenue"], []⟩ ["category"]
      [("revenue", "sum")] [] = (Except.error Err.divisionByZero, []) :=
  aggregate_data_empty_table_division_by_zero ⟨["category", "revenue"], []⟩
    ["category"] [("revenue", "sum")] [] rfl (by decide) (by decide) (by decide)

namespace TransformData


theorem charListLt_asymm : ∀ {x y : List Char},
    charListLt x y = true → charListLt y x = false
  | [], [], h => by simp [charListLt] at h
  | [], _ :: _, _ => by simp [charListLt]
  | _ :: _, [], h => by simp [charListLt] at h
  | c :: cs, d :: ds, h => by
    by_cases hcd : c.val.toNat < d.val.toNat
    · have hdc : ¬ d.val.toNat < c.val.toNat := by omega
      simp [charListLt, hcd, hdc]
    · by_cases hdc : d.val.toNat < c.val.toNat
      · simp [charListLt, hcd, hdc] at h
      · have h' : charListLt cs ds = true := by
          simpa [charListLt, hcd, hdc] using h
        simp [charListLt, hcd, hdc, charListLt_asymm h']

theorem charListLt_trans : ∀ {x y z : List Char},
    charListLt x y = true → charListLt y z = true → charListLt x z = true
  | [], y, [], _, h2 => by cases y <;> simp [charListLt] at h2
  | [], _, _ :: _, _, _ => by simp [charListLt]
  | _ :: _, [], _, h1, _ => by simp [charListLt] at h1
  | _ :: _, _ :: _, [], _, h2 => by simp [charListLt] at h2
  | c :: cs, d :: ds, e :: es, h1, h2 => by
    by_cases hcd : c.val.toNat < d.val.toNat <;> by_cases hde : d.val.toNat < e.val.toNat
    · have : c.val.toNat < e.val.toNat := by omega
      simp [charListLt, this]
    · by_cases hed : e.val.toNat < d.val.toNat
      · simp [charListLt, hde, hed] at h2
      · have : c.val.toNat < e.val.toNat := by omega
        simp [charListLt, this]
    · by_cases hdc : d.val.toNat < c.val.toNat
      · simp [charListLt, hcd, hdc] at h1
      · have : c.val.toNat < e.val.toNat := by omega
        simp [charListLt, this]
    · by_cases hdc : d.val.toNat < c.val.toNat
      · simp [charListLt, hcd, hdc] at h1
      · by_cases hed : e.val.toNat < d.val.toNat
        · simp [charListLt, hde, hed] at h2
        · have h1' : charListLt cs ds = true := by
            simpa [charListLt, hcd, hdc] using h1
          have h2' : charListLt ds es = true := by
            simpa [charListLt, hde, hed] using h2
          have hce : ¬ c.val.toNat < e.val.toNat := by omega
          have hec : ¬ e.val.toNat < c.val.toNat := by omega
          simp [charListLt, hce, hec, charListLt_trans h1' h2']

theorem charListLt_conn : ∀ {x y : List Char},
    charListLt x y = false → charListLt y x = false → x = y
  | [], [], _, _ => rfl
  | [], _ :: _, h1, _ => by simp [charListLt] at h1
  | _ :: _, [], _, h2 => by simp [charListLt] at h2
  | c :: cs, d :: ds, h1, h2 => by
    by_cases hcd : c.val.toNat < d.val.toNat
    · simp [charListLt, hcd] at h1
    · by_cases hdc : d.val.toNat < c.val.toNat
      · have hcd2 : ¬ c.val.toNat < d.val.toNat := hcd
        simp [charListLt, hdc, hcd2] at h2
      · have h1' : charListLt cs ds = false := by
          simpa [charListLt, hcd, hdc] using h1
        have h2' : charListLt ds cs = false := by
          simpa [charListLt, hcd, hdc] using h2
        have hch : c = d := Char.ext (UInt32.ext (by omega))
        rw [hch, charListLt_conn h1' h2']

theorem strLeB_flip (a b : String) (h : strLeB a b = false) :
    strLeB b a = true := by
  simp only [strLeB, Bool.not_eq_false'] at h
  simp only [strLeB, Bool.not_eq_true']
  exact charListLt_asymm h

theorem strLeB_trans (a b c : String) (h1 : strLeB a b = true)
    (h2 : strLeB b c = true) : strLeB a c = true := by
  simp only [strLeB, Bool.not_eq_true'] at h1 h2 ⊢
  by_cases hca : charListLt c.data a.data = true
  · by_cases hab : charListLt a.data b.data = true
    · rw [charListLt_trans hca hab] at h2
      exact absurd h2 (by simp)
    · have hab' : charListLt a.data b.data = false := by simpa using hab
      have heq := charListLt_conn hab' h1
      rw [heq] at hca
      rw [hca] at h2
      exact absurd h2 (by simp)
  · simpa using hca

theorem strLeB_antisymm (a b : String) (h1 : strLeB a b = true)
    (h2 : strLeB b a = true) : a = b := by
  simp only [strLeB, Bool.not_eq_true'] at h1 h2
  have := charListLt_conn h2 h1
  cases a
  cases b
  congr 1

theorem cellLe?_flip (a b : Cell) (h : cellLe? a b = some false) :
    cellLe? b a = some true := by
  cases a <;> cases b <;>
    simp only [cellLe?, Option.some.injEq, decide_eq_false_iff_not,
      decide_eq_true_eq, Bool.or_eq_false_iff, Bool.and_eq_false_iff,
      Bool.or_eq_true, Bool.and_eq_true, reduceCtorEq] at h ⊢
  · exact le_of_not_le h
  · exact strLeB_flip _ _ h
  · omega

theorem cellLe?_trans (a b c : Cell) (h1 : cellLe? a b = some true)
    (h2 : cellLe? b c = some true) : cellLe? a c = some true := by
  cases a <;> cases b <;> cases c <;>
    simp only [cellLe?, Option.some.injEq, decide_eq_true_eq,
      Bool.or_eq_true, Bool.and_eq_true, reduceCtorEq] at h1 h2 ⊢
  · exact le_trans h1 h2
  · exact strLeB_trans _ _ _ h1 h2
  · omega

theorem cellLe?_antisymm (a b : Cell) (h1 : cellLe? a b = some true)
    (h2 : cellLe? b a = some true) : a = b := by
  cases a <;> cases b <;>
    simp only [cellLe?, Option.some.injEq, decide_eq_true_eq,
      Bool.or_eq_true, Bool.and_eq_true, reduceCtorEq,
      Cell.num.injEq, Cell.text.injEq, Cell.date.injEq] at h1 h2 ⊢
  · exact le_antisymm h1 h2
  · exact strLeB_antisymm _ _ h1 h2
  · rename_i x y
    have hcomp : x.year = y.year ∧ x.month = y.month ∧ x.day = y.day := by omega
    obtain ⟨e1, e2, e3⟩ := hcomp
    cases x
    cases y
    simp_all

theorem keyLe?_nil_left (y : List Cell) : keyLe? [] y = some true := by
  cases y <;> rfl

theorem keyLe?_flip (x : List Cell) : ∀ (y : List Cell),
    keyLe? x y = some false → keyLe? y x = some true := by
  induction x with
  | nil =>
    intro y h
    rw [keyLe?_nil_left] at h
    exact absurd h (by simp)
  | cons a as ih =>
    intro y h
    cases y with
    | nil => exact keyLe?_nil_left _
    | cons b bs =>
      by_cases hab : a = b
      · subst hab
        simp only [keyLe?, if_pos rfl] at h ⊢
        exact ih bs h
      · have hba : ¬ b = a := fun hh => hab hh.symm
        simp only [keyLe?, if_neg hab] at h
        simp only [keyLe?, if_neg hba]
        exact cellLe?_flip a b h

theorem keyLe?_trans (x : List Cell) : ∀ (y z : List Cell),
    keyLe? x y = some true → keyLe? y z = some true →
    keyLe? x z = some true := by
  induction x with
  | nil => intro y z _ _; exact keyLe?_nil_left z
  | cons a as ih =>
    intro y z h1 h2
    cases y with
    | nil => simp [keyLe?] at h1
    | cons b bs =>
      cases z with
      | nil => simp [keyLe?] at h2
      | cons c cs =>
        by_cases hab : a = b
        · subst hab
          simp only [keyLe?, if_pos rfl] at h1
          by_cases hbc : a = c
          · subst hbc
            simp only [keyLe?, if_pos rfl] at h2 ⊢
            exact ih bs cs h1 h2
          · simp only [keyLe?, if_neg hbc] at h2 ⊢
            exact h2
        · simp only [keyLe?, if_neg hab] at h1
          by_cases hbc : b = c
          · subst hbc
            simp only [keyLe?, if_neg hab]
            exact h1
          · simp only [keyLe?, if_neg hbc] at h2
            by_cases hac : a = c
            · subst hac
              exact absurd (cellLe?_antisymm a b h1 h2) hab
            · simp only [keyLe?, if_neg hac]
              exact cellLe?_trans a b c h1 h2

theorem insertKeyE_mem {k : List Cell} {l l' : List (List Cell)}
    (h : insertKeyE k l = Except.ok l') {x : List Cell} :
    x ∈ l' ↔ x = k ∨ x ∈ l := by
  induction l generalizing l' with
  | nil =>
    simp only [insertKeyE, Except.ok.injEq] at h
    subst h
    simp
  | cons k' rest ih =>
    simp only [insertKeyE] at h
    cases hk : keyLe? k k' with
    | none => rw [hk] at h; exact absurd h (by simp)
    | some b =>
      rw [hk] at h
      cases b with
      | true =>
        simp only [Except.ok.injEq] at h
        subst h
        simp only [List.mem_cons]
      | false =>
        cases hrec : insertKeyE k rest with
        | error e => rw [hrec] at h; exact absurd h (by simp)
        | ok r =>
          rw [hrec] at h
          simp only [Except.ok.injEq] at h
          subst h
          simp only [List.mem_cons, ih hrec]
          tauto

theorem insertKeyE_sorted {k : List Cell} {l l' : List (List Cell)}
    (hs : l.Pairwise keyLeP) (h : insertKeyE k l = Except.ok l') :
    l'.Pairwise keyLeP := by
  induction l generalizing l' with
  | nil =>
    simp only [insertKeyE, Except.ok.injEq] at h
    subst h
    simp
  | cons k' rest ih =>
    rcases List.pairwise_cons.mp hs with ⟨hk', hrest⟩
    simp only [insertKeyE] at h
    cases hk : keyLe? k k' with
    | none => rw [hk] at h; exact absurd h (by simp)
    | some b =>
      rw [hk] at h
      cases b with
      | true =>
        simp only [Except.ok.injEq] at h
        subst h
        refine List.pairwise_cons.mpr ⟨?_, hs⟩
        intro y hy
        cases List.mem_cons.mp hy with
        | inl hyk => exact hyk ▸ hk
        | inr hyr => exact keyLe?_trans k k' y hk (hk' y hyr)
      | false =>
        cases hrec : insertKeyE k rest with
        | error e => rw [hrec] at h; exact absurd h (by simp)
        | ok r =>
          rw [hrec] at h
          simp only [Except.ok.injEq] at h
          subst h
          refine List.pairwise_cons.mpr ⟨?_, ih hrest hrec⟩
          intro y hy
          cases (insertKeyE_mem hrec).mp hy with
          | inl hyk => exact hyk ▸ keyLe?_flip k k' hk
          | inr hyr => exact hk' y hyr

theorem sortKeysE_mem {l s : List (List Cell)} (h : sortKeysE l = Except.ok s)
    {x : List Cell} : x ∈ s ↔ x ∈ l := by
  induction l generalizing s with
  | nil =>
    simp only [sortKeysE, Except.ok.injEq] at h
    subst h
    simp
  | cons k ks ih =>
    simp only [sortKeysE] at h
    cases hrec : sortKeysE ks with
    | error e => rw [hrec] at h; exact absurd h (by simp)
    | ok s' =>
      rw [hrec] at h
      rw [insertKeyE_mem h, ih hrec]
      simp

theorem sortKeysE_sorted {l s : List (List Cell)}
    (h : sortKeysE l = Except.ok s) : s.Pairwise keyLeP := by
  induction l generalizing s with
  | nil =>
    simp only [sortKeysE, Except.ok.injEq] at h
    subst h
    simp
  | cons k ks ih =>
    simp only [sortKeysE] at h
    cases hrec : sortKeysE ks with
    | error e => rw [hrec] at h; exact absurd h (by simp)
    | ok s' =>
      rw [hrec] at h
      exact insertKeyE_sorted (ih hrec) h

end TransformData

theorem mapE_ok_forall₂ {α β : Type} {f : α → Except Err β} {l : List α}
    {l' : List β} (h : mapE f l = Except.ok l') :
    List.Forall₂ (fun a b => f a = Except.ok b) l l' := by
  induction l generalizing l' with
  | nil =>
    simp only [mapE, Except.ok.injEq] at h
    subst h
    exact List.Forall₂.nil
  | cons a l ih =>
    simp only [mapE] at h
    cases hfa : f a with
    | error e => rw [hfa] at h; exact absurd h (by simp)
    | ok b =>
      rw [hfa] at h
      cases hl : mapE f l with
      | error e => rw [hl] at h; exact absurd h (by simp)
      | ok bs =>
        rw [hl] at h
        simp only [Except.ok.injEq] at h
        subst h
        exact List.Forall₂.cons hfa (ih hl)

theorem forall₂_mem_right {α β : Type} {R : α → β → Prop} {l : List α}
    {l' : List β} (hf : List.Forall₂ R l l') {b : β} (hb : b ∈ l') :
    ∃ a ∈ l, R a b := by
  induction hf with
  | nil => simp at hb
  | cons hr hrest ih =>
    rename_i x y xs ys
    cases List.mem_cons.mp hb with
    | inl h => exact ⟨x, List.mem_cons_self _ _, h ▸ hr⟩
    | inr h =>
      obtain ⟨a, ha, hra⟩ := ih h
      exact ⟨a, List.mem_cons_of_mem _ ha, hra⟩

theorem forall₂_mem_left {α β : Type} {R : α → β → Prop} {l : List α}
    {l' : List β} (hf : List.Forall₂ R l l') {a : α} (ha : a ∈ l) :
    ∃ b ∈ l', R a b := by
  induction hf with
  | nil => simp at ha
  | cons hr hrest ih =>
    rename_i x y xs ys
    cases List.mem_cons.mp ha with
    | inl h => exact ⟨y, List.mem_cons_self _ _, h ▸ hr⟩
    | inr h =>
      obtain ⟨b, hb, hrb⟩ := ih h
      exact ⟨b, List.mem_cons_of_mem _ hb, hrb⟩

theorem pairwise_of_forall₂ {α β : Type} {R : α → β → Prop} {S : α → α → Prop}
    {T : β → β → Prop} {l : List α} {l' : List β}
    (hcomp : ∀ a ∈ l, ∀ b ∈ l, ∀ a' b', R a a' → R b b' → S a b → T a' b')
    (hf : List.Forall₂ R l l') (hp : l.Pairwise S) : l'.Pairwise T := by
  induction hf with
  | nil => exact List.Pairwise.nil
  | cons hr hrest ih =>
    rename_i a b as bs
    rcases List.pairwise_cons.mp hp with ⟨ha, htail⟩
    refine List.pairwise_cons.mpr
      ⟨?_, ih (fun x hx y hy => hcomp x (List.mem_cons_of_mem a hx)
        y (List.mem_cons_of_mem a hy)) htail⟩
    intro b2 hb2
    obtain ⟨a2, ha2, hra2⟩ := forall₂_mem_right hrest hb2
    exact hcomp a (List.mem_cons_self a as) a2 (List.mem_cons_of_mem a ha2)
      b b2 hr hra2 (ha a2 ha2)

namespace TransformData

/-- Inversion of a successful `aggregate_data` run: the output rows are the
image, key by key, of the sorted deduplicated non-null group keys. -/
theorem aggregate_data_ok_parts {t : Table} {gb : List String}
    {spec : List (String × String)} {log : List LogEntry} {t' : Table}
    (h : (aggregate_data t gb spec log).1 = Except.ok t') :
    ∃ skeys : List (List Cell),
      sortKeysE (dedupKeepFirst ((t.rows.filter
          (fun r => ((rowKeyIdxs t gb).map (cellAt r)).all
            (fun c => !(c == Cell.null)))).map
          (fun r => (rowKeyIdxs t gb).map (cellAt r)))) = Except.ok skeys ∧
      List.Forall₂ (fun k r => ∃ g, aggRowE t spec g k = Except.ok r)
        skeys t'.rows ∧
      t'.columns = gb ++ spec.map Prod.fst := by
  unfold aggregate_data at h
  simp only [] at h
  split at h
  · simp at h
  · split at h
    · simp at h
    · split at h
      · simp at h
      · split at h
        · simp at h
        · rename_i skeys hsort
          split at h
          · simp at h
          · rename_i outRows hmap
            split at h
            · simp at h
            · simp only [Except.ok.injEq] at h
              refine ⟨skeys, hsort, ?_, ?_⟩
              · rw [← h]
                exact List.Forall₂.imp (fun _ _ hfa => ⟨_, hfa⟩)
                  (mapE_ok_forall₂ hmap)
              · rw [← h]

/-- A successful aggregation row is the group key followed by the
aggregated values. -/
theorem aggRowE_ok_append {t : Table} {spec : List (String × String)}
    {g : List (List Cell)} {k r : List Cell}
    (h : aggRowE t spec g k = Except.ok r) : ∃ vals, r = k ++ vals := by
  unfold aggRowE at h
  cases hm : mapE (fun p => aggOpE p.2
      (g.map (fun row => cellAt row ((t.colIdx? p.1).getD 0)))) spec with
  | error e => rw [hm] at h; exact absurd h (by simp)
  | ok vals =>
    rw [hm] at h
    simp only [Except.ok.injEq] at h
    exact ⟨vals, h.symm⟩

/-- Every key reaching the sorting stage has one cell per group column. -/
theorem skeys_length {t : Table} {gb : List String}
    {skeys : List (List Cell)}
    (hsort : sortKeysE (dedupKeepFirst ((t.rows.filter
        (fun r => ((rowKeyIdxs t gb).map (cellAt r)).all
          (fun c => !(c == Cell.null)))).map
        (fun r => (rowKeyIdxs t gb).map (cellAt r)))) = Except.ok skeys)
    {k : List Cell} (hk : k ∈ skeys) : k.length = gb.length := by
  have h1 := (sortKeysE_mem hsort).mp hk
  have h2 := dedupKeepFirst_mem.mp h1
  obtain ⟨r, _, hr⟩ := List.mem_map.mp h2
  rw [← hr]
  simp [rowKeyIdxs]

/-- Every key reaching the sorting stage contains no missing cell. -/
theorem skeys_no_null {t : Table} {gb : List String}
    {skeys : List (List Cell)}
    (hsort : sortKeysE (dedupKeepFirst ((t.rows.filter
        (fun r => ((rowKeyIdxs t gb).map (cellAt r)).all
          (fun c => !(c == Cell.null)))).map
        (fun r => (rowKeyIdxs t gb).map (cellAt r)))) = Except.ok skeys)
    {k : List Cell} (hk : k ∈ skeys) : ∀ c ∈ k, c ≠ Cell.null := by
  have h1 := (sortKeysE_mem hsort).mp hk
  have h2 := dedupKeepFirst_mem.mp h1
  obtain ⟨r, hrmem, hr⟩ := List.mem_map.mp h2
  have hpred := (List.mem_filter.mp hrmem).2
  rw [List.all_eq_true] at hpred
  intro c hc
  have := hpred c (hr ▸ hc)
  simpa using this

end TransformData


/-- C4 counterexample: pandas `groupby` sorts group keys (`sort=True` is
the default), so the output rows are in ascending key order, not in order
of first occurrence in the input: key b occurs first in the input, yet the
a-group row comes out first. -/
theorem aggregate_data_not_first_occurrence_order :
    (TransformData.aggregate_data tC4 ["category"] [("revenue", "count")] []).1 =
      Except.ok ⟨["category", "revenue"],
        [[Cell.text "a", Cell.num 1], [Cell.text "b", Cell.num 1]]⟩ ∧
    dedupKeepFirst (tC4.rows.map (List.take 1)) =
      [[Cell.text "b"], [Cell.text "a"]] ∧
    [[Cell.text "a"], [Cell.text "b"]] ≠ [[Cell.text "b"], [Cell.text "a"]] := by
  decide

/-- C4 (amended): for every successful `aggregate_data` call, the rows of
the output table are in ascending order of their group key (the pandas
groupby default `sort=True`), not in first-occurrence order. -/
theorem aggregate_data_output_sorted (t : Table) (gb : List String)
    (spec : List (String × String)) (log : List LogEntry) (t' : Table)
    (h : (TransformData.aggregate_data t gb spec log).1 = Except.ok t') :
    t'.rows.Pairwise (fun r1 r2 =>
      TransformData.keyLe? (r1.take gb.length) (r2.take gb.length) = some true) := by
  obtain ⟨skeys, hsort, hf, _⟩ := TransformData.aggregate_data_ok_parts h
  have hsorted := TransformData.sortKeysE_sorted hsort
  refine pairwise_of_forall₂ ?_ hf hsorted
  intro k1 hk1 k2 hk2 r1 r2 hr1 hr2 hle
  obtain ⟨g1, hg1⟩ := hr1
  obtain ⟨g2, hg2⟩ := hr2
  obtain ⟨v1, rfl⟩ := TransformData.aggRowE_ok_append hg1
  obtain ⟨v2, rfl⟩ := TransformData.aggRowE_ok_append hg2
  have ht1 : (k1 ++ v1).take gb.length = k1 := by
    rw [← TransformData.skeys_length hsort hk1]
    exact List.take_left k1 v1
  have ht2 : (k2 ++ v2).take gb.length = k2 := by
    rw [← TransformData.skeys_length hsort hk2]
    exact List.take_left k2 v2
  rw [ht1, ht2]
  exact hle

/-- Witness for the amended C4 theorem: the two-row concrete aggregation
comes out with its keys in ascending order. -/
theorem aggregate_data_output_sorted_witness :
    List.Pairwise (fun r1 r2 : List Cell =>
      TransformData.keyLe? (r1.take 1) (r2.take 1) = some true)
      [[Cell.text "a", Cell.num 1], [Cell.text "b", Cell.num 1]] :=
  aggregate_data_output_sorted tC4 ["category"] [("revenue", "count")] []
    ⟨["category", "revenue"],
      [[Cell.text "a", Cell.num 1], [Cell.text "b", Cell.num 1]]⟩ (by decide)


/-- C5 counterexample: pandas `groupby` drops rows whose group key contains
a missing value (`dropna=True` is the default), so the null-keyed row forms
no group: the output has a single row, for key a, and no row whose key is
null. -/
theorem aggregate_data_no_null_group :
    (TransformData.aggregate_data tC5 ["category"] [("revenue", "count")] []).1 =
      Except.ok ⟨["category", "revenue"], [[Cell.text "a", Cell.num 1]]⟩ ∧
    [Cell.null] ∈ tC5.rows.map (List.take 1) ∧
    [Cell.null] ∉ ([[Cell.text "a", Cell.num 1]] : List (List Cell)).map (List.take 1) := by
  decide

/-- C5 (amended): `aggregate_data` groups rows by equality of the group-key
tuple, but a key containing a missing value does NOT form a group: every
output row's key cells are non-null, and exactly the input rows whose key
has no missing cell have their key represented in the output. -/
theorem aggregate_data_drops_null_keys (t : Table) (gb : List String)
    (spec : List (String × String)) (log : List LogEntry) (t' : Table)
    (h : (TransformData.aggregate_data t gb spec log).1 = Except.ok t') :
    (∀ r ∈ t'.rows, ∀ j, j < gb.length → r.getD j Cell.null ≠ Cell.null) ∧
    (∀ r ∈ t.rows,
      (∀ c ∈ (TransformData.rowKeyIdxs t gb).map (cellAt r), c ≠ Cell.null) →
      (TransformData.rowKeyIdxs t gb).map (cellAt r) ∈
        t'.rows.map (List.take gb.length)) := by
  obtain ⟨skeys, hsort, hf, _⟩ := TransformData.aggregate_data_ok_parts h
  constructor
  · intro r hr j hj
    obtain ⟨k, hk, hrk⟩ := forall₂_mem_right hf hr
    obtain ⟨g, hg⟩ := hrk
    obtain ⟨vals, rfl⟩ := TransformData.aggRowE_ok_append hg
    have hklen : k.length = gb.length := TransformData.skeys_length hsort hk
    rw [List.getD_append _ _ _ _ (hklen ▸ hj)]
    have hjk : j < k.length := hklen ▸ hj
    rw [List.getD_eq_getElem _ _ hjk]
    exact TransformData.skeys_no_null hsort hk _ (List.getElem_mem hjk)
  · intro r hr hnn
    have hpred : ((TransformData.rowKeyIdxs t gb).map (cellAt r)).all
        (fun c => !(c == Cell.null)) = true := by
      rw [List.all_eq_true]
      intro c hc
      simpa using hnn c hc
    have hmem1 : r ∈ t.rows.filter
        (fun r => ((TransformData.rowKeyIdxs t gb).map (cellAt r)).all
          (fun c => !(c == Cell.null))) :=
      List.mem_filter.mpr ⟨hr, hpred⟩
    have hmem2 : (TransformData.rowKeyIdxs t gb).map (cellAt r) ∈
        dedupKeepFirst ((t.rows.filter
          (fun r => ((TransformData.rowKeyIdxs t gb).map (cellAt r)).all
            (fun c => !(c == Cell.null)))).map
          (fun r => (TransformData.rowKeyIdxs t gb).map (cellAt r))) := by
      rw [dedupKeepFirst_mem]
      exact List.mem_map.mpr ⟨r, hmem1, rfl⟩
    have hmem3 := (TransformData.sortKeysE_mem hsort).mpr hmem2
    obtain ⟨r', hr', hrr'⟩ := forall₂_mem_left hf hmem3
    obtain ⟨g, hg⟩ := hrr'
    obtain ⟨vals, rfl⟩ := TransformData.aggRowE_ok_append hg
    apply List.mem_map.mpr
    refine ⟨_, hr', ?_⟩
    have hklen : ((TransformData.rowKeyIdxs t gb).map (cellAt r)).length = gb.length := by
      simp [TransformData.rowKeyIdxs]
    rw [← hklen, List.take_left]

/-- Witness for the amended C5 theorem: the key of the concrete non-null
input row appears in the aggregated output. -/
theorem aggregate_data_drops_null_keys_witness :
    (TransformData.rowKeyIdxs tC5 ["category"]).map
        (cellAt [Cell.text "a", Cell.num 1]) ∈
      ([[Cell.text "a", Cell.num 1]] : List (List Cell)).map (List.take 1) := by
  have h := aggregate_data_drops_null_keys tC5 ["category"]
    [("revenue", "count")] [] ⟨["category", "revenue"],
      [[Cell.text "a", Cell.num 1]]⟩ (by decide)
  exact h.2 [Cell.text "a", Cell.num 1] (by decide) (by decide)

namespace TransformData

/-- The profit branch contributes either both field names or none. -/
theorem profitFields_snd {t : Table} {p : Table × List String}
    (h : profitFields t = Except.ok p) :
    p.2 = ["profit", "profit_margin"] ∨ p.2 = [] := by
  unfold profitFields at h
  simp only [] at h
  split at h
  · split at h
    · simp at h
    · split at h
      · simp at h
      · simp only [Except.ok.injEq] at h
        rw [← h]
        left
        rfl
  · simp only [Except.ok.injEq] at h
    rw [← h]
    right
    rfl

/-- The unit-price branch contributes either its field name or none. -/
theorem unitPriceFields_snd {t : Table} {p : Table × List String}
    (h : unitPriceFields t = Except.ok p) :
    p.2 = ["avg_unit_price"] ∨ p.2 = [] := by
  unfold unitPriceFields at h
  split at h
  · split at h
    · simp at h
    · simp only [Except.ok.injEq] at h
      rw [← h]
      left
      rfl
  · simp only [Except.ok.injEq] at h
    rw [← h]
    right
    rfl

end TransformData


/-- C10 counterexample: a column named exactly `date` does NOT suffice for
the date-component fields — on a text-valued date column the `.dt` accessor
raises, the `except` swallows it, and no fields are added: the output table
and the `fields_added` list are unchanged/empty. -/
theorem add_calculated_fields_text_date_no_fields :
    TransformData.add_calculated_fields tC10 [] =
      Except.ok (tC10, [LogEntry.calculated []]) ∧
    "date" ∈ tC10.columns ∧
    "year" ∉ tC10.columns := by
  decide

/-- C10 (amended): `add_calculated_fields` derives the five date-component
columns if and only if the table has a column named exactly `date` AND that
column is datetime-typed (so the `.dt` accessor applies); a date-typed
column under any other name, or a `date` column of another dtype, adds none
of them, and the `fields_added` log list then omits them. -/
theorem add_calculated_fields_date_fields_iff (t : Table) (log : List LogEntry)
    (t' : Table) (fs : List String)
    (h : TransformData.add_calculated_fields t log =
      Except.ok (t', log ++ [LogEntry.calculated fs])) :
    (("date" ∈ t.columns ∧ colKind (t.col "date") = ColKind.datetime) →
      "year" ∈ fs ∧ "month" ∈ fs ∧ "quarter" ∈ fs ∧ "day_of_week" ∈ fs ∧
        "week_of_year" ∈ fs) ∧
    (¬ ("date" ∈ t.columns ∧ colKind (t.col "date") = ColKind.datetime) →
      "year" ∉ fs ∧ "month" ∉ fs ∧ "quarter" ∉ fs ∧ "day_of_week" ∉ fs ∧
        "week_of_year" ∉ fs) := by
  unfold TransformData.add_calculated_fields at h
  simp only [] at h
  by_cases hcond : (t.columns.contains "date" &&
      decide (colKind (t.col "date") = ColKind.datetime)) = true
  · rw [if_pos hcond] at h
    have hcond1 := hcond
    simp only [Bool.and_eq_true, decide_eq_true_eq] at hcond1
    have hcond2 : "date" ∈ t.columns ∧ colKind (t.col "date") = ColKind.datetime :=
      ⟨List.elem_iff.mp hcond1.1, hcond1.2⟩
    split at h
    · simp at h
    · rename_i p2 hp2
      split at h
      · simp at h
      · rename_i p3 hp3
        simp only [Except.ok.injEq, Prod.mk.injEq, List.append_cancel_left_eq,
          List.cons.injEq, LogEntry.calculated.injEq, and_true] at h
        have hfs : fs = ["year", "month", "quarter", "day_of_week",
            "week_of_year"] ++ p2.2 ++ p3.2 := h.2.symm
        constructor
        · intro _
          subst hfs
          simp
        · intro hnc
          exact absurd hcond2 hnc
  · rw [if_neg hcond] at h
    have hcond2 : ¬ ("date" ∈ t.columns ∧
        colKind (t.col "date") = ColKind.datetime) := by
      intro hc
      refine hcond ?_
      simp only [Bool.and_eq_true, decide_eq_true_eq]
      exact ⟨List.elem_iff.mpr hc.1, hc.2⟩
    split at h
    · simp at h
    · rename_i p2 hp2
      split at h
      · simp at h
      · rename_i p3 hp3
        simp only [Except.ok.injEq, Prod.mk.injEq, List.append_cancel_left_eq,
          List.cons.injEq, LogEntry.calculated.injEq, and_true] at h
        have hfs : fs = [] ++ p2.2 ++ p3.2 := h.2.symm
        constructor
        · intro hc
          exact absurd hc hcond2
        · intro _
          subst hfs
          rcases TransformData.profitFields_snd hp2 with h2 | h2 <;>
            rcases TransformData.unitPriceFields_snd hp3 with h3 | h3 <;>
              simp [h2, h3]


/-- Witness for the amended C10 theorem on a concrete datetime column. -/
theorem add_calculated_fields_date_fields_iff_witness :
    "year" ∈ ["year", "month", "quarter", "day_of_week", "week_of_year"] ∧
    "month" ∈ ["year", "month", "quarter", "day_of_week", "week_of_year"] ∧
    "quarter" ∈ ["year", "month", "quarter", "day_of_week", "week_of_year"] ∧
    "day_of_week" ∈ ["year", "month", "quarter", "day_of_week", "week_of_year"] ∧
    "week_of_year" ∈ ["year", "month", "quarter", "day_of_week", "week_of_year"] :=
  (add_calculated_fields_date_fields_iff tW10 [] ⟨["date", "year", "month",
      "quarter", "day_of_week", "week_of_year"],
      [[Cell.date ⟨2024, 1, 1⟩, Cell.num 2024, Cell.num 1, Cell.num 1,
        Cell.num 0, Cell.num 1]]⟩
    ["year", "month", "quarter", "day_of_week", "week_of_year"]
    (by decide)).1 (by decide)

namespace TransformData



theorem cellSub_eq_subNN {a b : Cell} (ha : a.isNumOrNull = true)
    (hb : b.isNumOrNull = true) : cellSub a b = Except.ok (subNN a b) := by
  cases a <;> cases b <;> simp_all [Cell.isNumOrNull, cellSub, subNN]

theorem subNN_isNumOrNull (a b : Cell) : (subNN a b).isNumOrNull = true := by
  cases a <;> cases b <;> simp [subNN, Cell.isNumOrNull]

theorem profitMarginCell_eq_marginNN {p r : Cell} (hp : p.isNumOrNull = true)
    (hr : r.isNumOrNull = true) :
    profitMarginCell p r = Except.ok (marginNN p r) := by
  cases p with
  | num pv =>
    cases r with
    | num rv =>
      by_cases hr0 : rv = 0
      · by_cases hp0 : pv = 0
        · norm_num [profitMarginCell, cellDiv, marginNN, hr0, hp0,
            cellMulScalar, cellRound2]
        · by_cases hpp : 0 < pv
          · norm_num [profitMarginCell, cellDiv, marginNN, hr0, hp0, hpp,
              cellMulScalar, cellRound2]
          · norm_num [profitMarginCell, cellDiv, marginNN, hr0, hp0, hpp,
              cellMulScalar, cellRound2]
      · norm_num [profitMarginCell, cellDiv, marginNN, hr0,
          cellMulScalar, cellRound2]
    | text s => simp [Cell.isNumOrNull] at hr
    | date d => simp [Cell.isNumOrNull] at hr
    | posInf => simp [Cell.isNumOrNull] at hr
    | negInf => simp [Cell.isNumOrNull] at hr
    | null => simp [profitMarginCell, cellDiv, cellMulScalar, cellRound2, marginNN]
  | text s => simp [Cell.isNumOrNull] at hp
  | date d => simp [Cell.isNumOrNull] at hp
  | posInf => simp [Cell.isNumOrNull] at hp
  | negInf => simp [Cell.isNumOrNull] at hp
  | null =>
    cases r <;> simp_all [Cell.isNumOrNull, profitMarginCell, cellDiv,
      cellMulScalar, cellRound2, marginNN]

end TransformData

/-- getD through a zipWith, at an index inside both lists. -/
theorem getD_zipWith {α β γ : Type} {f : α → β → γ} {l1 : List α}
    {l2 : List β} {i : Nat} (h1 : i < l1.length) (h2 : i < l2.length)
    (d1 : α) (d2 : β) (d3 : γ) :
    (List.zipWith f l1 l2).getD i d3 = f (l1.getD i d1) (l2.getD i d2) := by
  rw [List.getD_eq_getElem _ _ (by rw [List.length_zipWith]; omega),
    List.getD_eq_getElem _ _ h1, List.getD_eq_getElem _ _ h2,
    List.getElem_zipWith]

namespace TransformData

/-- Evaluation of `add_calculated_fields` on a table with numeric revenue
and cost columns (and none of the other trigger columns): it succeeds and
adds exactly the profit and profit_margin columns. -/
theorem add_calculated_fields_eval (t : Table) (log : List LogEntry)
    (hwf : t.WF)
    (hr : "revenue" ∈ t.columns) (hc : "cost" ∈ t.columns)
    (hd : "date" ∉ t.columns) (hu : "units_sold" ∉ t.columns)
    (hp : "profit" ∉ t.columns) (hpm : "profit_margin" ∉ t.columns)
    (hnr : ∀ c ∈ t.col "revenue", c.isNumOrNull = true)
    (hnc : ∀ c ∈ t.col "cost", c.isNumOrNull = true) :
    add_calculated_fields t log = Except.ok
      ((t.setCol "profit"
          (List.zipWith subNN (t.col "revenue") (t.col "cost"))).setCol
        "profit_margin" (List.zipWith marginNN
          (List.zipWith subNN (t.col "revenue") (t.col "cost"))
          (t.col "revenue")),
       log ++ [LogEntry.calculated ["profit", "profit_margin"]]) := by
  obtain ⟨ir, hir⟩ := colIdx?_isSome_of_mem hr
  obtain ⟨ic, hic⟩ := colIdx?_isSome_of_mem hc
  have hlenR : (t.col "revenue").length = t.rows.length := length_col hir
  have hlenC : (t.col "cost").length = t.rows.length := length_col hic
  have hzip1 : zipWithE cellSub (t.col "revenue") (t.col "cost") =
      Except.ok (List.zipWith subNN (t.col "revenue") (t.col "cost")) :=
    zipWithE_eq_ok_of_pointwise _ subNN
      (fun a ha b hb => cellSub_eq_subNN (hnr a ha) (hnc b hb))
  have hplen : (List.zipWith subNN (t.col "revenue") (t.col "cost")).length =
      t.rows.length := by
    rw [List.length_zipWith, hlenR, hlenC]
    simp
  have hPnone : t.colIdx? "profit" = none := colIdx?_eq_none hp
  have hT1colP : (t.setCol "profit"
      (List.zipWith subNN (t.col "revenue") (t.col "cost"))).col "profit" =
      List.zipWith subNN (t.col "revenue") (t.col "cost") :=
    col_setCol_self_new hwf hPnone hplen
  have hT1colR : (t.setCol "profit"
      (List.zipWith subNN (t.col "revenue") (t.col "cost"))).col "revenue" =
      t.col "revenue" :=
    col_setCol_other hwf (by decide) hplen
  have hprofitsNN : ∀ x ∈ List.zipWith subNN (t.col "revenue") (t.col "cost"),
      x.isNumOrNull = true := by
    intro x hx
    obtain ⟨a, _, b, _, rfl⟩ := mem_zipWith hx
    exact subNN_isNumOrNull a b
  have hzip2 : zipWithE profitMarginCell
      ((t.setCol "profit"
        (List.zipWith subNN (t.col "revenue") (t.col "cost"))).col "profit")
      ((t.setCol "profit"
        (List.zipWith subNN (t.col "revenue") (t.col "cost"))).col "revenue") =
      Except.ok (List.zipWith marginNN
        (List.zipWith subNN (t.col "revenue") (t.col "cost"))
        (t.col "revenue")) := by
    rw [hT1colP, hT1colR]
    exact zipWithE_eq_ok_of_pointwise _ marginNN
      (fun p hp2 r hr2 =>
        profitMarginCell_eq_marginNN (hprofitsNN p hp2) (hnr r hr2))
  have hdF : t.columns.contains "date" = false := by
    cases hcont : t.columns.contains "date" with
    | false => rfl
    | true => exact absurd (List.elem_iff.mp hcont) hd
  have hrT : t.columns.contains "revenue" = true := List.elem_iff.mpr hr
  have hcT : t.columns.contains "cost" = true := List.elem_iff.mpr hc
  have hT1cols : (t.setCol "profit"
      (List.zipWith subNN (t.col "revenue") (t.col "cost"))).columns =
      t.columns ++ ["profit"] := columns_setCol_of_not_mem hPnone _
  have hPMnone : (t.setCol "profit"
      (List.zipWith subNN (t.col "revenue") (t.col "cost"))).colIdx?
      "profit_margin" = none := by
    apply colIdx?_eq_none
    rw [hT1cols]
    simp only [List.mem_append, List.mem_singleton]
    rintro (hmem | hmem)
    · exact hpm hmem
    · exact absurd hmem (by decide)
  have hT2cols : ((t.setCol "profit"
      (List.zipWith subNN (t.col "revenue") (t.col "cost"))).setCol
      "profit_margin" (List.zipWith marginNN
        (List.zipWith subNN (t.col "revenue") (t.col "cost"))
        (t.col "revenue"))).columns =
      (t.columns ++ ["profit"]) ++ ["profit_margin"] := by
    rw [columns_setCol_of_not_mem hPMnone, hT1cols]
  have hrT2 : ((t.setCol "profit"
      (List.zipWith subNN (t.col "revenue") (t.col "cost"))).setCol
      "profit_margin" (List.zipWith marginNN
        (List.zipWith subNN (t.col "revenue") (t.col "cost"))
        (t.col "revenue"))).columns.contains "revenue" = true := by
    rw [hT2cols]
    apply List.elem_iff.mpr
    simp only [List.mem_append]
    left
    left
    exact hr
  have huF : ((t.setCol "profit"
      (List.zipWith subNN (t.col "revenue") (t.col "cost"))).setCol
      "profit_margin" (List.zipWith marginNN
        (List.zipWith subNN (t.col "revenue") (t.col "cost"))
        (t.col "revenue"))).columns.contains "units_sold" = false := by
    cases hcont : ((t.setCol "profit"
        (List.zipWith subNN (t.col "revenue") (t.col "cost"))).setCol
        "profit_margin" (List.zipWith marginNN
          (List.zipWith subNN (t.col "revenue") (t.col "cost"))
          (t.col "revenue"))).columns.contains "units_sold" with
    | false => rfl
    | true =>
      exfalso
      have := List.elem_iff.mp hcont
      rw [hT2cols] at this
      simp only [List.mem_append, List.mem_singleton] at this
      rcases this with (hmem | hmem) | hmem
      · exact hu hmem
      · exact absurd hmem (by decide)
      · exact absurd hmem (by decide)
  unfold add_calculated_fields
  simp only [hdF, Bool.false_and, Bool.false_eq_true, if_false]
  unfold profitFields
  simp only [hrT, hcT, Bool.and_self, if_true, hzip1]
  simp only [hzip2]
  unfold unitPriceFields
  simp only [hrT2, huF, Bool.and_false, Bool.false_eq_true, if_false]
  simp

end TransformData

/-- C3 (amended): on a table with numeric revenue and cost columns (and no
other trigger columns), `add_calculated_fields` never raises and adds
`profit = revenue - cost` and `profit_margin = round(profit/revenue*100, 2)`
per row; a row with `revenue == 0` gets NaN (a missing value) only when
`cost == 0` too, and otherwise gets +∞ (cost < 0) or -∞ (cost > 0) — an
infinity, which pandas does NOT treat as null. -/
theorem add_calculated_fields_profit_and_margin (t : Table)
    (log : List LogEntry) (hwf : t.WF)
    (hr : "revenue" ∈ t.columns) (hc : "cost" ∈ t.columns)
    (hd : "date" ∉ t.columns) (hu : "units_sold" ∉ t.columns)
    (hp : "profit" ∉ t.columns) (hpm : "profit_margin" ∉ t.columns)
    (hnr : ∀ c ∈ t.col "revenue", c.isNumOrNull = true)
    (hnc : ∀ c ∈ t.col "cost", c.isNumOrNull = true) :
    (∀ e, TransformData.add_calculated_fields t log ≠ Except.error e) ∧
    (∀ t' log',
      TransformData.add_calculated_fields t log = Except.ok (t', log') →
      "profit" ∈ t'.columns ∧ "profit_margin" ∈ t'.columns ∧
      ∀ i r c, i < t.rows.length →
        (t.col "revenue").getD i Cell.null = Cell.num r →
        (t.col "cost").getD i Cell.null = Cell.num c →
        ((t'.col "profit").getD i Cell.null = Cell.num (r - c) ∧
         (r ≠ 0 → (t'.col "profit_margin").getD i Cell.null =
           Cell.num (round2 ((r - c) / r * 100))) ∧
         (r = 0 → c = 0 →
           (t'.col "profit_margin").getD i Cell.null = Cell.null) ∧
         (r = 0 → c < 0 →
           (t'.col "profit_margin").getD i Cell.null = Cell.posInf) ∧
         (r = 0 → 0 < c →
           (t'.col "profit_margin").getD i Cell.null = Cell.negInf))) := by
  have hacf := TransformData.add_calculated_fields_eval t log hwf hr hc hd hu
    hp hpm hnr hnc
  obtain ⟨ir, hir⟩ := colIdx?_isSome_of_mem hr
  obtain ⟨ic, hic⟩ := colIdx?_isSome_of_mem hc
  have hlenR : (t.col "revenue").length = t.rows.length := length_col hir
  have hlenC : (t.col "cost").length = t.rows.length := length_col hic
  have hplen : (List.zipWith TransformData.subNN (t.col "revenue")
      (t.col "cost")).length = t.rows.length := by
    rw [List.length_zipWith, hlenR, hlenC]
    simp
  have hPnone : t.colIdx? "profit" = none := colIdx?_eq_none hp
  have hwf1 : (t.setCol "profit" (List.zipWith TransformData.subNN
      (t.col "revenue") (t.col "cost"))).WF := WF_setCol hwf hplen
  have hrows1 : (t.setCol "profit" (List.zipWith TransformData.subNN
      (t.col "revenue") (t.col "cost"))).rows.length = t.rows.length :=
    rows_length_setCol hplen
  have hmlen : (List.zipWith TransformData.marginNN
      (List.zipWith TransformData.subNN (t.col "revenue") (t.col "cost"))
      (t.col "revenue")).length =
      (t.setCol "profit" (List.zipWith TransformData.subNN (t.col "revenue")
        (t.col "cost"))).rows.length := by
    rw [List.length_zipWith, hplen, hlenR, hrows1]
    simp
  have hT1cols : (t.setCol "profit" (List.zipWith TransformData.subNN
      (t.col "revenue") (t.col "cost"))).columns = t.columns ++ ["profit"] :=
    columns_setCol_of_not_mem hPnone _
  have hPMnone : (t.setCol "profit" (List.zipWith TransformData.subNN
      (t.col "revenue") (t.col "cost"))).colIdx? "profit_margin" = none := by
    apply colIdx?_eq_none
    rw [hT1cols]
    simp only [List.mem_append, List.mem_singleton]
    rintro (hmem | hmem)
    · exact hpm hmem
    · exact absurd hmem (by decide)
  have hcolP : ((t.setCol "profit" (List.zipWith TransformData.subNN
      (t.col "revenue") (t.col "cost"))).setCol "profit_margin"
      (List.zipWith TransformData.marginNN
        (List.zipWith TransformData.subNN (t.col "revenue") (t.col "cost"))
        (t.col "revenue"))).col "profit" =
      List.zipWith TransformData.subNN (t.col "revenue") (t.col "cost") := by
    rw [col_setCol_other hwf1 (by decide) hmlen]
    exact col_setCol_self_new hwf hPnone hplen
  have hcolPM : ((t.setCol "profit" (List.zipWith TransformData.subNN
      (t.col "revenue") (t.col "cost"))).setCol "profit_margin"
      (List.zipWith TransformData.marginNN
        (List.zipWith TransformData.subNN (t.col "revenue") (t.col "cost"))
        (t.col "revenue"))).col "profit_margin" =
      List.zipWith TransformData.marginNN
        (List.zipWith TransformData.subNN (t.col "revenue") (t.col "cost"))
        (t.col "revenue") :=
    col_setCol_self_new hwf1 hPMnone hmlen
  have hT2cols : ((t.setCol "profit" (List.zipWith TransformData.subNN
      (t.col "revenue") (t.col "cost"))).setCol "profit_margin"
      (List.zipWith TransformData.marginNN
        (List.zipWith TransformData.subNN (t.col "revenue") (t.col "cost"))
        (t.col "revenue"))).columns =
      (t.columns ++ ["profit"]) ++ ["profit_margin"] := by
    rw [columns_setCol_of_not_mem hPMnone, hT1cols]
  constructor
  · intro e heq
    rw [hacf] at heq
    exact absurd heq (by simp)
  · intro t' log' heq
    rw [hacf] at heq
    simp only [Except.ok.injEq, Prod.mk.injEq] at heq
    obtain ⟨ht', _⟩ := heq
    subst ht'
    refine ⟨?_, ?_, ?_⟩
    · rw [hT2cols]
      simp [hr]
    · rw [hT2cols]
      simp
    · intro i r c hi hri hci
      have hiR : i < (t.col "revenue").length := by omega
      have hiC : i < (t.col "cost").length := by omega
      have hiP : i < (List.zipWith TransformData.subNN (t.col "revenue")
          (t.col "cost")).length := by omega
      have hgP : ((((t.setCol "profit" (List.zipWith TransformData.subNN
          (t.col "revenue") (t.col "cost"))).setCol "profit_margin"
          (List.zipWith TransformData.marginNN
            (List.zipWith TransformData.subNN (t.col "revenue") (t.col "cost"))
            (t.col "revenue"))).col "profit").getD i Cell.null) =
          Cell.num (r - c) := by
        rw [hcolP, getD_zipWith hiR hiC Cell.null Cell.null Cell.null,
          hri, hci]
        rfl
      have hgm : ((((t.setCol "profit" (List.zipWith TransformData.subNN
          (t.col "revenue") (t.col "cost"))).setCol "profit_margin"
          (List.zipWith TransformData.marginNN
            (List.zipWith TransformData.subNN (t.col "revenue") (t.col "cost"))
            (t.col "revenue"))).col "profit_margin").getD i Cell.null) =
          TransformData.marginNN (Cell.num (r - c)) (Cell.num r) := by
        rw [hcolPM, getD_zipWith hiP hiR Cell.null Cell.null Cell.null,
          getD_zipWith hiR hiC Cell.null Cell.null Cell.null, hri, hci]
        rfl
      refine ⟨hgP, ?_, ?_, ?_, ?_⟩
      · intro hr0
        rw [hgm]
        simp [TransformData.marginNN, hr0]
      · intro hr0 hc0
        rw [hgm]
        norm_num [TransformData.marginNN, hr0, hc0]
      · intro hr0 hcneg
        rw [hgm]
        have hpos : 0 < r - c := by rw [hr0]; linarith
        have hne : r - c ≠ 0 := ne_of_gt hpos
        simp [TransformData.marginNN, hr0, hne, hpos]
        rw [if_neg (ne_of_lt hcneg), if_pos hcneg]
      · intro hr0 hcpos
        rw [hgm]
        have hneg : r - c < 0 := by rw [hr0]; linarith
        have hne : r - c ≠ 0 := ne_of_lt hneg
        have hnpos : ¬ 0 < r - c := by linarith
        simp [TransformData.marginNN, hr0, hne, hnpos]
        rw [if_neg (ne_of_gt hcpos), if_neg (by linarith : ¬ c < 0)]


/-- C3 counterexample: on a row with revenue 0 and cost 5, profit is -5 and
`profit_margin = ((-5)/0 * 100).round(2)` is -infinity under numpy
semantics — an infinite value, not a missing one: the claim that every
zero-revenue row gets a null margin is false. -/
theorem add_calculated_fields_zero_revenue_not_null :
    TransformData.add_calculated_fields tC3 [] =
      Except.ok (⟨["revenue", "cost", "profit", "profit_margin"],
        [[Cell.num 0, Cell.num 5, Cell.num (-5), Cell.negInf]]⟩,
       [LogEntry.calculated ["profit", "profit_margin"]]) ∧
    Cell.negInf ≠ Cell.null := by
  refine ⟨?_, by decide⟩
  have c1 : tC3.col "revenue" = [Cell.num 0] := by decide
  have c2 : tC3.col "cost" = [Cell.num 5] := by decide
  have e1 : List.zipWith TransformData.subNN [Cell.num 0] [Cell.num 5] =
      [Cell.num (-5)] := by
    norm_num [TransformData.subNN, List.zipWith]
  have e2 : List.zipWith TransformData.marginNN [Cell.num (-5)] [Cell.num 0] =
      [Cell.negInf] := by
    norm_num [TransformData.marginNN, List.zipWith]
  rw [TransformData.add_calculated_fields_eval tC3 [] (by decide) (by decide)
    (by decide) (by decide) (by decide) (by decide) (by decide)
    (by decide) (by decide), c1, c2, e1, e2]
  decide


/-- Witness for the amended C3 theorem: on the concrete two-row table with
a zero-revenue row, the operation does not raise. -/
theorem add_calculated_fields_profit_and_margin_witness :
    TransformData.add_calculated_fields tW3 [] ≠ Except.error Err.typeError :=
  (add_calculated_fields_profit_and_margin tW3 [] (by decide) (by decide)
    (by decide) (by decide) (by decide) (by decide) (by decide)
    (by decide) (by decide)).1 Err.typeError

namespace TransformData


theorem filterRowsE_sublist {α : Type} {p : α → Except Err Bool}
    {l l' : List α} (h : filterRowsE p l = Except.ok l') : l'.Sublist l := by
  induction l generalizing l' with
  | nil =>
    simp only [filterRowsE, Except.ok.injEq] at h
    subst h
    exact List.Sublist.refl []
  | cons a l ih =>
    simp only [filterRowsE] at h
    cases hpa : p a with
    | error e => rw [hpa] at h; exact absurd h (by simp)
    | ok b =>
      rw [hpa] at h
      cases hrec : filterRowsE p l with
      | error e => rw [hrec] at h; exact absurd h (by simp)
      | ok l2 =>
        rw [hrec] at h
        simp only [Except.ok.injEq] at h
        subst h
        cases b with
        | true => exact (ih hrec).cons₂ a
        | false => exact (ih hrec).cons a

theorem filterRowsE_sat {α : Type} {p : α → Except Err Bool} {l l' : List α}
    (h : filterRowsE p l = Except.ok l') : ∀ x ∈ l', p x = Except.ok true := by
  induction l generalizing l' with
  | nil =>
    simp only [filterRowsE, Except.ok.injEq] at h
    subst h
    simp
  | cons a l ih =>
    simp only [filterRowsE] at h
    cases hpa : p a with
    | error e => rw [hpa] at h; exact absurd h (by simp)
    | ok b =>
      rw [hpa] at h
      cases hrec : filterRowsE p l with
      | error e => rw [hrec] at h; exact absurd h (by simp)
      | ok l2 =>
        rw [hrec] at h
        simp only [Except.ok.injEq] at h
        subst h
        intro x hx
        cases b with
        | true =>
          cases List.mem_cons.mp hx with
          | inl hxa => exact hxa ▸ hpa
          | inr hxl => exact ih hrec x hxl
        | false => exact ih hrec x hx

theorem applyCondRows_sublist {i : Nat} {cond : String}
    {rows rows' : List (List Cell)}
    (h : applyCondRows i cond rows = Except.ok rows') : rows'.Sublist rows := by
  unfold applyCondRows at h
  split at h
  · cases hp : parseFloat? (removeAllChar cond '>') with
    | none => rw [hp] at h; exact absurd h (by simp)
    | some v => rw [hp] at h; exact filterRowsE_sublist h
  · split at h
    · cases hp : parseFloat? (removeAllChar cond '<') with
      | none => rw [hp] at h; exact absurd h (by simp)
      | some v => rw [hp] at h; exact filterRowsE_sublist h
    · split at h
      · simp only [Except.ok.injEq] at h
        subst h
        exact List.filter_sublist rows
      · simp only [Except.ok.injEq] at h
        subst h
        exact List.Sublist.refl rows

theorem applyCondRows_sat {t : Table} {i : Nat} {c cond : String}
    {rows rows' : List (List Cell)} (hidx : t.colIdx? c = some i)
    (h : applyCondRows i cond rows = Except.ok rows') :
    ∀ r ∈ rows', condHolds t r c cond = true := by
  intro r hr
  unfold applyCondRows at h
  unfold condHolds
  rw [hidx]
  simp only []
  by_cases hgt : charContains cond '>' = true
  · rw [if_pos hgt] at h
    rw [if_pos hgt]
    cases hp : parseFloat? (removeAllChar cond '>') with
    | none => rw [hp] at h; exact absurd h (by simp)
    | some v =>
      rw [hp] at h
      simp only [] at h ⊢
      rw [filterRowsE_sat h r hr]
  · rw [if_neg hgt] at h
    rw [if_neg hgt]
    by_cases hlt : charContains cond '<' = true
    · rw [if_pos hlt] at h
      rw [if_pos hlt]
      cases hp : parseFloat? (removeAllChar cond '<') with
      | none => rw [hp] at h; exact absurd h (by simp)
      | some v =>
        rw [hp] at h
        simp only [] at h ⊢
        rw [filterRowsE_sat h r hr]
    · rw [if_neg hlt] at h
      rw [if_neg hlt]
      by_cases heq : strContainsSubstr cond "==" = true
      · rw [if_pos heq] at h
        rw [if_pos heq]
        simp only [Except.ok.injEq] at h
        subst h
        exact (List.mem_filter.mp hr).2
      · rw [if_neg heq]

theorem applyConds_ok {t : Table} {conds : List (String × String)}
    {rows rows' : List (List Cell)}
    (h : applyConds t conds rows = Except.ok rows') :
    rows'.Sublist rows ∧
    ∀ r ∈ rows', ∀ p ∈ conds, p.1 ∈ t.columns →
      condHolds t r p.1 p.2 = true := by
  induction conds generalizing rows with
  | nil =>
    simp only [applyConds, Except.ok.injEq] at h
    subst h
    exact ⟨List.Sublist.refl _, by simp⟩
  | cons cc rest ih =>
    obtain ⟨c, cond⟩ := cc
    simp only [applyConds] at h
    cases hidx : t.colIdx? c with
    | none =>
      rw [hidx] at h
      obtain ⟨hsub, hsat⟩ := ih h
      refine ⟨hsub, ?_⟩
      intro r hr p hp hmem
      cases List.mem_cons.mp hp with
      | inl hpc =>
        exfalso
        obtain ⟨j, hj⟩ := colIdx?_isSome_of_mem (hpc ▸ hmem)
        simp only at hj
        rw [hidx] at hj
        exact absurd hj (by simp)
      | inr hprest => exact hsat r hr p hprest hmem
    | some i =>
      rw [hidx] at h
      simp only [] at h
      cases hmid : applyCondRows i cond rows with
      | error e => rw [hmid] at h; exact absurd h (by simp)
      | ok rmid =>
        rw [hmid] at h
        obtain ⟨hsub, hsat⟩ := ih h
        refine ⟨hsub.trans (applyCondRows_sublist hmid), ?_⟩
        intro r hr p hp hmem
        cases List.mem_cons.mp hp with
        | inl hpc =>
          subst hpc
          exact applyCondRows_sat hidx hmid r (hsub.subset hr)
        | inr hprest => exact hsat r hr p hprest hmem

end TransformData

/-- C6: whenever `filter_data` returns, the output has at most as many
rows as the input, and every surviving row satisfies every condition whose
column exists in the table (conditions are ANDed, applied in order to the
already-filtered rows). -/
theorem filter_data_sound (t : Table) (conditions : List (String × String))
    (log : List LogEntry) (t' : Table) (log' : List LogEntry)
    (h : TransformData.filter_data t conditions log = Except.ok (t', log')) :
    t'.rows.length ≤ t.rows.length ∧
    ∀ r ∈ t'.rows, ∀ p ∈ conditions, p.1 ∈ t.columns →
      TransformData.condHolds t r p.1 p.2 = true := by
  unfold TransformData.filter_data at h
  cases happ : TransformData.applyConds t conditions t.rows with
  | error e => rw [happ] at h; exact absurd h (by simp)
  | ok rows2 =>
    rw [happ] at h
    simp only [Except.ok.injEq, Prod.mk.injEq] at h
    obtain ⟨ht', _⟩ := h
    obtain ⟨hsub, hsat⟩ := TransformData.applyConds_ok happ
    subst ht'
    exact ⟨hsub.length_le, hsat⟩


/-- Witness for the C6 theorem: filtering the 3-row scenario table with
`revenue > 900` keeps 2 rows, and both survivors satisfy the condition. -/
theorem filter_data_sound_witness :
    (2 : Nat) ≤ 3 ∧
    TransformData.condHolds tScen [Cell.num 1000, Cell.num 600]
      "revenue" ">900" = true ∧
    TransformData.condHolds tScen [Cell.num 1500, Cell.num 900]
      "revenue" ">900" = true := by
  have h := filter_data_sound tScen [("revenue", ">900")] []
    ⟨["revenue", "cost"],
      [[Cell.num 1000, Cell.num 600], [Cell.num 1500, Cell.num 900]]⟩
    [LogEntry.filterStep 3 2 1] (by decide)
  refine ⟨h.1, ?_, ?_⟩
  · exact h.2 [Cell.num 1000, Cell.num 600] (by decide)
      ("revenue", ">900") (by decide) (by decide)
  · exact h.2 [Cell.num 1500, Cell.num 900] (by decide)
      ("revenue", ">900") (by decide) (by decide)


/-- C8: whenever a step of `run_pipeline` fails, the run aborts there —
the error is the run's result, nothing is written to the processed store,
the completed-step log is a prefix of the pre-load step sequence, and in
particular the load step never ran. -/
theorem run_pipeline_abort (raw processed : Pipeline.Store) (input_file : String)
    (output_file : Option String) (add_stats : Bool) (now : String) (e : Err)
    (h : (Pipeline.run_pipeline raw processed input_file output_file add_stats now).result
        = Except.error e) :
    (Pipeline.run_pipeline raw processed input_file output_file add_stats now).processed
      = processed ∧
    (Pipeline.run_pipeline raw processed input_file output_file add_stats now).steps
      <+: ["extract", "clean_data", "calculate_profit_margin"] ∧
    "load" ∉ (Pipeline.run_pipeline raw processed input_file output_file add_stats now).steps := by
  unfold Pipeline.run_pipeline at h ⊢
  simp only [] at h ⊢
  cases hx : Pipeline.extract_csv raw input_file with
  | error e1 =>
    exact ⟨rfl, List.nil_prefix, by simp⟩
  | ok df =>
    rw [hx] at h
    simp only [] at h ⊢
    cases hm : Pipeline.calculate_profit_margin (Pipeline.clean_data df) "revenue" (3 / 10) with
    | error e2 =>
      refine ⟨rfl, ?_, by simp⟩
      exact ⟨["calculate_profit_margin"], rfl⟩
    | ok df2 =>
      rw [hm] at h
      simp only [] at h ⊢
      cases hs : (if add_stats then Pipeline.calculate_statistics df2 else Except.ok df2) with
      | error e3 =>
        refine ⟨rfl, ?_, by simp⟩
        exact ⟨[], by simp⟩
      | ok df3 =>
        rw [hs] at h
        simp only [] at h
        exact absurd h (by simp)

/-- Witness for the C8 theorem: running the pipeline on a stored table
without a revenue column fails at `calculate_profit_margin`; the processed
store stays empty, only extract and clean_data are logged, and no load
happens. -/
theorem run_pipeline_abort_witness :
    (Pipeline.run_pipeline [("sales.csv", tNoRev)] [] "sales.csv" none false "t").processed
      = ([] : Pipeline.Store) ∧
    (Pipeline.run_pipeline [("sales.csv", tNoRev)] [] "sales.csv" none false "t").steps
      <+: ["extract", "clean_data", "calculate_profit_margin"] ∧
    "load" ∉ (Pipeline.run_pipeline [("sales.csv", tNoRev)] [] "sales.csv" none false "t").steps :=
  run_pipeline_abort [("sales.csv", tNoRev)] [] "sales.csv" none false "t"
    (Err.columnNotFound "revenue") (by decide)
